import Mathlib

/- Shallow embedding of the wikicollage canvas interaction engine
   (src/memento.js, src/pages.js, src/selection.js, src/resize.js,
   src/viewport.js, src/block.js) together with proofs about it.

   Modelling conventions:
   * JavaScript numbers are modelled as exact rationals.
   * JS arrays are lists; for the undo/redo stacks the stack top (the end of
     the JS array, where push/pop happen) is the HEAD of the list, so
     `arr.push(m)` is `m :: stack`, popping the end is taking the tail, and
     `[...stack, m].slice(-max)` keeps the `max` newest elements, i.e.
     `(m :: stack).take max` (with the JS `slice(-0)` quirk: a size of 0
     keeps everything).
   * `JSON.parse(JSON.stringify(x))` is the identity on the modelled values.
   * Opaque per-page data (`state`, `css`) is carried as strings. -/

namespace Wikicollage

/-- A canvas block (see the Block typedef and src/block.js). -/
structure Block where
  id : Nat
  x : ℚ
  y : ℚ
  width : ℚ
  height : ℚ
  zIndex : Int
  imageSrc : String
  pageSrc : String
deriving DecidableEq

/-- In-progress drag record (`page.dragStart` in src/viewport.js / src/block.js). -/
structure DragStart where
  id : Nat
  startX : ℚ
  startY : ℚ
deriving DecidableEq

/-- In-progress marquee record (`page.selectionBox`). -/
structure SelectionBox where
  startX : ℚ
  startY : ℚ
  currentX : ℚ
  currentY : ℚ
deriving DecidableEq

/-- Snapshot of one block taken at group-resize start
    (`resizing.originalBlocks` entries in src/resize.js). -/
structure OriginalBlock where
  id : Nat
  x : ℚ
  y : ℚ
  width : ℚ
  height : ℚ
deriving DecidableEq

/-- The `resizing.id` field is either a block id or the string
    `"selection-bounding-box"`. -/
inductive ResizeTarget where
  | block (id : Nat)
  | selectionBoundingBox
deriving DecidableEq

/-- The eight resize handles. -/
inductive Handle where
  | nw | ne | sw | se | n | s | w | e
deriving DecidableEq

/-- In-progress resize record (`page.resizing`). -/
structure Resizing where
  id : ResizeTarget
  handle : Handle
  startWidth : ℚ
  startHeight : ℚ
  startX : ℚ
  startY : ℚ
  originalBlocks : Option (List OriginalBlock)
deriving DecidableEq

/-- A page (see `defaultPage` in src/pages.js). -/
structure Page where
  id : String
  name : String
  blocks : List Block
  offsetX : ℚ
  offsetY : ℚ
  zoom : ℚ
  mouseX : ℚ
  mouseY : ℚ
  cursorStyle : String
  isViewportDragging : Bool
  isTextEditorFocused : Bool
  isInteractMode : Bool
  selectedIds : List Nat
  editingId : Option Nat
  hoveringId : Option Nat
  resizing : Option Resizing
  dragStart : Option DragStart
  previewSelectedIds : List Nat
  selectionBox : Option SelectionBox
  progState : String
  css : String
deriving DecidableEq

/-- A memento: deep snapshot of pages plus the current page id
    (src/memento.js `createMemento`). -/
structure Memento where
  pages : List Page
  currentPageId : String
deriving DecidableEq

/-- The memento manager (src/memento.js `createMementoManager`). -/
structure MementoManager where
  undoStack : List Memento
  redoStack : List Memento
  maxHistorySize : Nat
deriving DecidableEq

/-- Top-level application state (the fields of `initialState` in src/app.js
    that the canvas engine reads or writes). -/
structure AppState where
  pages : List Page
  currentPageId : String
  mementoManager : MementoManager
  isShiftPressed : Bool
deriving DecidableEq

/-- src/memento.js `createMementoManager`. -/
def createMementoManager : MementoManager :=
  { undoStack := [], redoStack := [], maxHistorySize := 50 }

/-- The per-page cleanup performed by `createMemento`: reset `selectedIds`,
    `dragStart` and `resizing`; every other field (including
    `previewSelectedIds` and `selectionBox`) is carried over by the spread. -/
def cleanPage (p : Page) : Page :=
  { p with selectedIds := [], dragStart := none, resizing := none }

/-- src/memento.js `createMemento`. -/
def createMemento (state : AppState) : Memento :=
  { pages := state.pages.map cleanPage, currentPageId := state.currentPageId }

/-- `[...stack, m].slice(-maxSize)` in the head-is-top model: push and keep
    the `maxSize` newest entries; JS `slice(-0)` returns the whole array. -/
def pushBounded (maxSize : Nat) (m : Memento) (stack : List Memento) : List Memento :=
  if maxSize = 0 then m :: stack else (m :: stack).take maxSize

/-- src/memento.js `saveMementoAndReturn`. -/
def saveMementoAndReturn (prevState newState : AppState) : AppState :=
  { newState with
      mementoManager :=
        { prevState.mementoManager with
            undoStack :=
              pushBounded prevState.mementoManager.maxHistorySize
                (createMemento prevState) prevState.mementoManager.undoStack
            redoStack := [] } }

/-- src/memento.js `undoState`. -/
def undoState (state : AppState) : AppState :=
  match state.mementoManager.undoStack with
  | [] => state
  | memento :: rest =>
      { state with
          pages := memento.pages
          currentPageId := memento.currentPageId
          mementoManager :=
            { state.mementoManager with
                undoStack := rest
                redoStack := createMemento state :: state.mementoManager.redoStack } }

/-- src/memento.js `redoState`. -/
def redoState (state : AppState) : AppState :=
  match state.mementoManager.redoStack with
  | [] => state
  | memento :: rest =>
      { state with
          pages := memento.pages
          currentPageId := memento.currentPageId
          mementoManager :=
            { state.mementoManager with
                undoStack := createMemento state :: state.mementoManager.undoStack
                redoStack := rest } }

/-- src/pages.js `getCurrentPage`. -/
def getCurrentPage (state : AppState) : Option Page :=
  state.pages.find? (fun p => p.id == state.currentPageId)

/-- src/pages.js `getCurrentBlocks`. -/
def getCurrentBlocks (state : AppState) : List Block :=
  match getCurrentPage state with
  | some p => p.blocks
  | none => []

/-- Viewport triple returned by src/pages.js `getCurrentViewport`. -/
structure Viewport where
  offsetX : ℚ
  offsetY : ℚ
  zoom : ℚ
deriving DecidableEq

/-- src/pages.js `getCurrentViewport`. -/
def getCurrentViewport (state : AppState) : Viewport :=
  match getCurrentPage state with
  | some p => { offsetX := p.offsetX, offsetY := p.offsetY, zoom := p.zoom }
  | none => { offsetX := 0, offsetY := 0, zoom := 1 }

/-- src/pages.js `updateCurrentPage`.  The JS `pageData` object is a record
    of constant field values spread over the page; it is modelled as the
    field update `upd` that every caller instantiates with exactly the
    constant assignments of its `pageData`. -/
def updateCurrentPage (state : AppState) (upd : Page → Page) : AppState :=
  { state with
      pages := state.pages.map
        (fun p => if p.id == state.currentPageId then upd p else p) }

/-- src/selection.js `isBlockSelected`. -/
def isBlockSelected (state : AppState) (blockId : Nat) : Bool :=
  match getCurrentPage state with
  | some p => p.selectedIds.contains blockId
  | none => false

/-- src/selection.js `getSelectedBlocks`. -/
def getSelectedBlocks (state : AppState) : List Block :=
  match getCurrentPage state with
  | none => []
  | some p =>
      if p.selectedIds.isEmpty then []
      else p.blocks.filter (fun b => p.selectedIds.contains b.id)

/-- src/selection.js `getSelectedBlockIds`. -/
def getSelectedBlockIds (state : AppState) : List Nat :=
  match getCurrentPage state with
  | some p => p.selectedIds
  | none => []

/-- src/selection.js `hasSelection`. -/
def hasSelection (state : AppState) : Bool :=
  decide (0 < (getSelectedBlockIds state).length)

/-- src/selection.js `selectBlock`. -/
def selectBlock (state : AppState) (blockId : Nat) : AppState :=
  updateCurrentPage state (fun p => { p with selectedIds := [blockId], editingId := none })

/-- src/selection.js `deselectAllBlocks`. -/
def deselectAllBlocks (state : AppState) : AppState :=
  updateCurrentPage state (fun p => { p with selectedIds := [], editingId := none })

/-- src/selection.js `addBlockToSelection`. -/
def addBlockToSelection (state : AppState) (blockId : Nat) : AppState :=
  match getCurrentPage state with
  | none => state
  | some p =>
      if p.selectedIds.contains blockId then state
      else
        updateCurrentPage state
          (fun q => { q with selectedIds := p.selectedIds ++ [blockId], editingId := none })

/-- src/selection.js `removeBlockFromSelection`. -/
def removeBlockFromSelection (state : AppState) (blockId : Nat) : AppState :=
  match getCurrentPage state with
  | none => state
  | some p =>
      updateCurrentPage state
        (fun q => { q with selectedIds := p.selectedIds.filter (fun i => i ≠ blockId),
                           editingId := none })

/-- src/selection.js `toggleBlockSelection`. -/
def toggleBlockSelection (state : AppState) (blockId : Nat) : AppState :=
  if isBlockSelected state blockId then removeBlockFromSelection state blockId
  else addBlockToSelection state blockId

/-- A plain rectangle `{x, y, width, height}`. -/
structure Rect where
  x : ℚ
  y : ℚ
  width : ℚ
  height : ℚ
deriving DecidableEq

/-- src/selection.js `getSelectionBoundingBox`: one selected block returns its
    own rectangle, two or more return the min/max envelope. -/
def getSelectionBoundingBox (state : AppState) : Option Rect :=
  match getSelectedBlocks state with
  | [] => none
  | [b] => some { x := b.x, y := b.y, width := b.width, height := b.height }
  | b :: bs =>
      let minX := bs.foldl (fun acc bl => min acc bl.x) b.x
      let minY := bs.foldl (fun acc bl => min acc bl.y) b.y
      let maxX := bs.foldl (fun acc bl => max acc (bl.x + bl.width)) (b.x + b.width)
      let maxY := bs.foldl (fun acc bl => max acc (bl.y + bl.height)) (b.y + b.height)
      some { x := minX, y := minY, width := maxX - minX, height := maxY - minY }

/-- src/selection.js `isPointInSelectionBounds` (false unless at least two
    blocks are selected). -/
def isPointInSelectionBounds (state : AppState) (canvasX canvasY : ℚ) : Bool :=
  let selectedBlocks := getSelectedBlocks state
  if selectedBlocks.length ≤ 1 then false
  else
    match getSelectionBoundingBox state with
    | none => false
    | some bb =>
        decide (bb.x ≤ canvasX ∧ canvasX ≤ bb.x + bb.width ∧
                bb.y ≤ canvasY ∧ canvasY ≤ bb.y + bb.height)

/-- The per-block intersection test inside src/selection.js
    `calculatePreviewSelection`: the block is kept unless it lies strictly
    outside the marquee rectangle. -/
def blockIntersectsBox (b : Block) (box : SelectionBox) : Bool :=
  let minX := min box.startX box.currentX
  let maxX := max box.startX box.currentX
  let minY := min box.startY box.currentY
  let maxY := max box.startY box.currentY
  !(decide (b.x > maxX) || decide (b.x + b.width < minX) ||
    decide (b.y > maxY) || decide (b.y + b.height < minY))

/-- `[...new Set(l)]`: deduplicate keeping the first occurrence of each id. -/
def jsSetDedup : List Nat → List Nat
  | [] => []
  | a :: rest => a :: jsSetDedup (rest.filter (fun x => x ≠ a))
termination_by l => l.length
decreasing_by
  simp only [List.length_cons]
  exact Nat.lt_succ_of_le (List.length_filter_le _ _)

/-- src/selection.js `calculatePreviewSelection`. -/
def calculatePreviewSelection (state : AppState) (selectionBox : SelectionBox) : List Nat :=
  match getCurrentPage state with
  | none => []
  | some currentPage =>
      let blocks := getCurrentBlocks state
      let intersectingBlockIds :=
        (blocks.filter (fun b => blockIntersectsBox b selectionBox)).map Block.id
      if state.isShiftPressed then
        jsSetDedup (currentPage.selectedIds ++ intersectingBlockIds)
      else intersectingBlockIds

/-- src/selection.js `handleSelectionBoxComplete`. -/
def handleSelectionBoxComplete (state : AppState) (selectionBox : SelectionBox) : AppState :=
  let newSelectedIds := calculatePreviewSelection state selectionBox
  updateCurrentPage state
    (fun p => { p with selectedIds := newSelectedIds, previewSelectedIds := [] })

/-- src/constants.js `MIN_SIZE`. -/
def MIN_SIZE : ℚ := 20

/-- Pointer position handed to a resize handler (`e.percentX` / `e.percentY`
    in src/resize.js, already in canvas coordinates). -/
structure HandlerPos where
  percentX : ℚ
  percentY : ℚ
deriving DecidableEq

/-- src/resize.js `RESIZE_HANDLERS`: the eight per-handle transforms. -/
def RESIZE_HANDLERS : Handle → Rect → HandlerPos → Rect
  | .nw => fun block e =>
      { width := block.x + block.width - e.percentX
        height := block.y + block.height - e.percentY
        x := min (block.x + block.width - MIN_SIZE) e.percentX
        y := min (block.y + block.height - MIN_SIZE) e.percentY }
  | .ne => fun block e =>
      { width := e.percentX - block.x
        height := block.y + block.height - e.percentY
        x := block.x
        y := min (block.y + block.height - MIN_SIZE) e.percentY }
  | .sw => fun block e =>
      { width := block.x + block.width - e.percentX
        height := e.percentY - block.y
        x := min (block.x + block.width - MIN_SIZE) e.percentX
        y := block.y }
  | .se => fun block e =>
      { width := e.percentX - block.x
        height := e.percentY - block.y
        x := block.x
        y := block.y }
  | .n => fun block e =>
      { width := block.width
        height := block.y + block.height - e.percentY
        x := block.x
        y := min (block.y + block.height - MIN_SIZE) e.percentY }
  | .s => fun block e =>
      { width := block.width
        height := e.percentY - block.y
        x := block.x
        y := block.y }
  | .w => fun block e =>
      { width := block.x + block.width - e.percentX
        height := block.height
        x := min (block.x + block.width - MIN_SIZE) e.percentX
        y := block.y }
  | .e => fun block e =>
      { width := e.percentX - block.x
        height := block.height
        x := block.x
        y := block.y }

/-- Whether a handle is one of the four corner handles. -/
def Handle.isCorner : Handle → Bool
  | .nw | .ne | .sw | .se => true
  | _ => false

/-- src/resize.js `applyAspectRatioConstraint`. -/
def applyAspectRatioConstraint (dimensions : Rect) (originalBlock : Rect)
    (handle : Handle) : Rect :=
  let originalAspectRatio := originalBlock.width / originalBlock.height
  if handle.isCorner then
    let constrainedByWidth : Rect :=
      { width := dimensions.width
        height := dimensions.width / originalAspectRatio
        x := dimensions.x
        y := dimensions.y }
    let constrainedByHeight : Rect :=
      { width := dimensions.height * originalAspectRatio
        height := dimensions.height
        x := dimensions.x
        y := dimensions.y }
    let widthArea := constrainedByWidth.width * constrainedByWidth.height
    let heightArea := constrainedByHeight.width * constrainedByHeight.height
    let useWidthConstraint := widthArea ≤ heightArea
    let result0 := if useWidthConstraint then constrainedByWidth else constrainedByHeight
    let result :=
      { result0 with width := max MIN_SIZE result0.width
                     height := max MIN_SIZE result0.height }
    if useWidthConstraint then
      if handle = .nw ∨ handle = .ne then
        { result with y := dimensions.y - (result.height - dimensions.height) }
      else result
    else
      if handle = .nw ∨ handle = .sw then
        { result with x := dimensions.x - (result.width - dimensions.width) }
      else result
  else if handle = .n ∨ handle = .s then
    let newWidth := dimensions.height * originalAspectRatio
    let widthDiff := newWidth - originalBlock.width
    { dimensions with width := max MIN_SIZE newWidth
                      x := originalBlock.x - widthDiff / 2 }
  else
    let newHeight := dimensions.width / originalAspectRatio
    let heightDiff := newHeight - originalBlock.height
    { dimensions with height := max MIN_SIZE newHeight
                      y := originalBlock.y - heightDiff / 2 }

/-- A pointer event together with the canvas element's bounding rectangle,
    which `getCanvasCoordinates` reads from the DOM. -/
structure PEvent where
  clientX : ℚ
  clientY : ℚ
  button : Nat
  shiftKey : Bool
  canvasRectLeft : ℚ
  canvasRectTop : ℚ
deriving DecidableEq

/-- src/viewport.js `getCanvasCoordinates`. -/
def getCanvasCoordinates (event : PEvent) (state : AppState) : ℚ × ℚ :=
  let viewport := getCurrentViewport state
  ((event.clientX - event.canvasRectLeft) / viewport.zoom,
   (event.clientY - event.canvasRectTop) / viewport.zoom)

/-- The per-block update of the group-resize branch of
    `handleResizePointerMove`: blocks with an `originalBlocks` entry are
    re-projected onto the new bounding box, all others are untouched. -/
def groupResizeBlock (resizing : Resizing) (originalBlocks : List OriginalBlock)
    (newBBox : Rect) (scaleX scaleY : ℚ) (b : Block) : Block :=
  match originalBlocks.find? (fun o => o.id == b.id) with
  | none => b
  | some originalBlock =>
      let relativeX := (originalBlock.x - resizing.startX) / resizing.startWidth
      let relativeY := (originalBlock.y - resizing.startY) / resizing.startHeight
      { b with
          x := newBBox.x + relativeX * newBBox.width
          y := newBBox.y + relativeY * newBBox.height
          width := max MIN_SIZE (originalBlock.width * scaleX)
          height := max MIN_SIZE (originalBlock.height * scaleY) }

/-- The per-block update of the single-block branch of
    `handleResizePointerMove`. -/
def singleResizeBlock (blockId : Nat) (newDimensions : Rect)
    (finalWidth finalHeight : ℚ) (b : Block) : Block :=
  if b.id == blockId then
    { b with x := newDimensions.x, y := newDimensions.y,
             width := finalWidth, height := finalHeight }
  else b

/-- src/resize.js `handleResizePointerMove`. -/
def handleResizePointerMove (state : AppState) (event : PEvent) : AppState :=
  match getCurrentPage state with
  | none => state
  | some page =>
    match page.resizing with
    | none => state
    | some resizing =>
      let viewport := getCurrentViewport state
      let canvasX := (event.clientX - event.canvasRectLeft) / viewport.zoom
      let canvasY := (event.clientY - event.canvasRectTop) / viewport.zoom
      let blocks := getCurrentBlocks state
      match resizing.id with
      | .selectionBoundingBox =>
        match resizing.originalBlocks with
        | none => state
        | some originalBlocks =>
          let virtualBoundingBox : Rect :=
            { x := resizing.startX, y := resizing.startY,
              width := resizing.startWidth, height := resizing.startHeight }
          let newBBox0 :=
            RESIZE_HANDLERS resizing.handle virtualBoundingBox
              { percentX := canvasX, percentY := canvasY }
          let newBBox :=
            if state.isShiftPressed then
              applyAspectRatioConstraint newBBox0 virtualBoundingBox resizing.handle
            else newBBox0
          let scaleX := newBBox.width / resizing.startWidth
          let scaleY := newBBox.height / resizing.startHeight
          updateCurrentPage state (fun p =>
            { p with
                blocks := blocks.map
                  (groupResizeBlock resizing originalBlocks newBBox scaleX scaleY) })
      | .block blockId =>
        match blocks.find? (fun b => b.id == blockId) with
        | none => state
        | some block =>
          let newDimensions0 :=
            RESIZE_HANDLERS resizing.handle
              { x := block.x, y := block.y, width := block.width, height := block.height }
              { percentX := canvasX, percentY := canvasY }
          let newDimensions :=
            if state.isShiftPressed then
              applyAspectRatioConstraint newDimensions0
                { x := resizing.startX, y := resizing.startY,
                  width := resizing.startWidth, height := resizing.startHeight }
                resizing.handle
            else newDimensions0
          let finalWidth := max MIN_SIZE newDimensions.width
          let finalHeight := max MIN_SIZE newDimensions.height
          updateCurrentPage state (fun p =>
            { p with
                blocks := blocks.map
                  (singleResizeBlock blockId newDimensions finalWidth finalHeight) })

/-- src/constants.js `RESIZE_CURSORS`. -/
def RESIZE_CURSORS : Handle → String
  | .nw => "nwse-resize"
  | .ne => "nesw-resize"
  | .sw => "nesw-resize"
  | .se => "nwse-resize"
  | .n => "ns-resize"
  | .s => "ns-resize"
  | .w => "ew-resize"
  | .e => "ew-resize"

/-- src/resize.js `ResizeHandle` `onpointerdown`, block context.  The handler
    closure exists only for a rendered block, modelled by the id lookup; the
    JS `if (!block) return state` guard is the `none` branch. -/
def resizeHandleBlockPointerDown (state : AppState) (blockId : Nat)
    (handle : Handle) : AppState :=
  match (getCurrentBlocks state).find? (fun b => b.id == blockId) with
  | none => state
  | some block =>
      let selectedState := selectBlock state blockId
      updateCurrentPage selectedState (fun p =>
        { p with
            resizing := some
              { id := .block blockId, handle := handle,
                startWidth := block.width, startHeight := block.height,
                startX := block.x, startY := block.y, originalBlocks := none }
            cursorStyle := RESIZE_CURSORS handle })

/-- src/resize.js `ResizeHandle` `onpointerdown`, multi-select context. -/
def resizeHandleMultiPointerDown (state : AppState) (handle : Handle) : AppState :=
  let selectedBlocks := getSelectedBlocks state
  match getSelectionBoundingBox state with
  | none => state
  | some bbox =>
      if selectedBlocks.length ≤ 1 then state
      else
        updateCurrentPage state (fun p =>
          { p with
              resizing := some
                { id := .selectionBoundingBox, handle := handle,
                  startWidth := bbox.width, startHeight := bbox.height,
                  startX := bbox.x, startY := bbox.y,
                  originalBlocks := some (selectedBlocks.map (fun b =>
                    { id := b.id, x := b.x, y := b.y,
                      width := b.width, height := b.height })) }
              cursorStyle := RESIZE_CURSORS handle })

/-- src/viewport.js `handleMiddleMouseDown`. -/
def handleMiddleMouseDown (state : AppState) : AppState :=
  let deselectedState := deselectAllBlocks state
  updateCurrentPage deselectedState (fun p =>
    { p with isViewportDragging := true, cursorStyle := "grabbing" })

/-- src/viewport.js `handleDragStart`. -/
def handleDragStart (state : AppState) (canvasX canvasY : ℚ)
    (isShiftKey : Bool) : AppState :=
  let isInSelectionBounds := isPointInSelectionBounds state canvasX canvasY
  if isInSelectionBounds && !isShiftKey then
    match getSelectedBlocks state with
    | referenceBlock :: _ =>
        updateCurrentPage state (fun p =>
          { p with
              dragStart := some
                { id := referenceBlock.id, startX := referenceBlock.x,
                  startY := referenceBlock.y } })
    | [] => state
  else state

/-- src/viewport.js `handleSelectionBoxStart`. -/
def handleSelectionBoxStart (state : AppState) (canvasX canvasY : ℚ)
    (isShiftKey : Bool) : AppState :=
  let keptSelectedIds :=
    if isShiftKey then
      match getCurrentPage state with
      | some p => p.selectedIds
      | none => []
    else []
  updateCurrentPage state (fun p =>
    { p with
        selectionBox := some
          { startX := canvasX, startY := canvasY,
            currentX := canvasX, currentY := canvasY }
        selectedIds := keptSelectedIds
        previewSelectedIds := []
        editingId := none })

/-- src/viewport.js `onpointerdown`.  The JS `dragResult !== state` reference
    test succeeds exactly when `handleDragStart` built a fresh object, i.e.
    when the point lies in the selection bounds, shift is up and some block
    is selected; the guard below is that condition. -/
def viewportOnPointerDown (state : AppState) (event : PEvent) : AppState :=
  if event.button = 1 then handleMiddleMouseDown state
  else
    let c := getCanvasCoordinates event state
    let isInSelectionBounds := isPointInSelectionBounds state c.1 c.2
    if isInSelectionBounds && !event.shiftKey && !(getSelectedBlocks state).isEmpty then
      handleDragStart state c.1 c.2 event.shiftKey
    else if event.button = 0 then
      handleSelectionBoxStart state c.1 c.2 event.shiftKey
    else state

/-- src/viewport.js `handleBlockDrag`. -/
def handleBlockDrag (state : AppState) (dx dy : ℚ) : AppState :=
  let viewport := getCurrentViewport state
  let adjustedDx := dx / viewport.zoom
  let adjustedDy := dy / viewport.zoom
  let blocks := getCurrentBlocks state
  let selectedBlockIds := getSelectedBlockIds state
  updateCurrentPage state (fun p =>
    { p with blocks := blocks.map (fun b =>
        if selectedBlockIds.contains b.id then
          { b with x := b.x + adjustedDx, y := b.y + adjustedDy }
        else b) })

/-- src/viewport.js `handleViewportDrag`. -/
def handleViewportDrag (state : AppState) (dx dy : ℚ) : AppState :=
  let viewport := getCurrentViewport state
  updateCurrentPage state (fun p =>
    { p with offsetX := viewport.offsetX + dx, offsetY := viewport.offsetY + dy })

/-- src/viewport.js `handleSelectionBoxMove`. -/
def handleSelectionBoxMove (state : AppState) (event : PEvent) : AppState :=
  match getCurrentPage state with
  | none => state
  | some currentPage =>
    match currentPage.selectionBox with
    | none => state
    | some selectionBox =>
      let c := getCanvasCoordinates event state
      let updatedSelectionBox :=
        { selectionBox with currentX := c.1, currentY := c.2 }
      let previewSelectedIds := calculatePreviewSelection state updatedSelectionBox
      updateCurrentPage state (fun p =>
        { p with selectionBox := some updatedSelectionBox
                 previewSelectedIds := previewSelectedIds })

/-- src/viewport.js `onpointermove`. -/
def viewportOnPointerMove (state : AppState) (event : PEvent) : AppState :=
  match getCurrentPage state with
  | none => state
  | some currentPage =>
    let dx := event.clientX - currentPage.mouseX
    let dy := event.clientY - currentPage.mouseY
    let state1 := updateCurrentPage state (fun p =>
      { p with mouseX := event.clientX, mouseY := event.clientY })
    if currentPage.resizing.isSome then handleResizePointerMove state1 event
    else if currentPage.dragStart.isSome && currentPage.editingId == none then
      handleBlockDrag state1 dx dy
    else if currentPage.isViewportDragging then handleViewportDrag state1 dx dy
    else if currentPage.selectionBox.isSome then handleSelectionBoxMove state1 event
    else state1

/-- The `hasAnyBlockMoved` check inside src/viewport.js
    `handleDragCompletion`: the reference block is compared exactly against
    its stored start position, every other selected block against the
    reconstructed original position with a 0.1px epsilon. -/
def dragMovedCheck (blocks : List Block) (selectedBlockIds : List Nat)
    (dragStart : DragStart) (draggedBlock : Option Block) : Bool :=
  selectedBlockIds.any (fun blockId =>
    match blocks.find? (fun b => b.id == blockId) with
    | none => false
    | some block =>
      if blockId == dragStart.id then
        !(decide (block.x = dragStart.startX) && decide (block.y = dragStart.startY))
      else
        let dragDeltaX :=
          dragStart.startX - (match draggedBlock with
                              | some d => d.x
                              | none => 0)
        let dragDeltaY :=
          dragStart.startY - (match draggedBlock with
                              | some d => d.y
                              | none => 0)
        let originalX := block.x + dragDeltaX
        let originalY := block.y + dragDeltaY
        decide (|block.x - originalX| > 1/10) || decide (|block.y - originalY| > 1/10))

/-- The `beforeDragState` of `handleDragCompletion`: all selected blocks
    translated back by the drag delta — the pre-gesture geometry. -/
def preDragState (state : AppState) (selectedBlockIds : List Nat)
    (dragDeltaX dragDeltaY : ℚ) : AppState :=
  updateCurrentPage state (fun p =>
    { p with blocks := (getCurrentBlocks state).map (fun b =>
        if selectedBlockIds.contains b.id then
          { b with x := b.x - dragDeltaX, y := b.y - dragDeltaY }
        else b) })

/-- src/viewport.js `handleDragCompletion`.  `state` is the state at
    pointer-up, `newState` the state with gesture records already cleared. -/
def handleDragCompletion (state newState : AppState) : AppState :=
  match getCurrentPage state with
  | none => newState
  | some currentPage =>
    match currentPage.dragStart with
    | none => newState
    | some dragStart =>
      let blocks := getCurrentBlocks state
      let selectedBlockIds := getSelectedBlockIds state
      let draggedBlock := blocks.find? (fun b => b.id == dragStart.id)
      let hasAnyBlockMoved := dragMovedCheck blocks selectedBlockIds dragStart draggedBlock
      match draggedBlock with
      | none => newState
      | some draggedBlock =>
        if hasAnyBlockMoved then
          saveMementoAndReturn
            (preDragState state selectedBlockIds
              (draggedBlock.x - dragStart.startX) (draggedBlock.y - dragStart.startY))
            newState
        else newState

/-- The `hasAnyBlockChanged` check inside src/viewport.js
    `handleResizeCompletion` (group branch): every snapshotted original
    block is compared with its current geometry with a 0.1px epsilon on
    each of x, y, width and height. -/
def resizeChangedCheck (blocks : List Block)
    (originalBlocks : List OriginalBlock) : Bool :=
  originalBlocks.any (fun originalBlock =>
    match blocks.find? (fun b => b.id == originalBlock.id) with
    | none => false
    | some currentBlock =>
        decide (|currentBlock.x - originalBlock.x| > 1/10) ||
        decide (|currentBlock.y - originalBlock.y| > 1/10) ||
        decide (|currentBlock.width - originalBlock.width| > 1/10) ||
        decide (|currentBlock.height - originalBlock.height| > 1/10))

/-- The `beforeResizeState` of `handleResizeCompletion`'s single-block
    branch: the resized block restored to the recorded start geometry. -/
def preResizeSingleState (state : AppState) (blockId : Nat)
    (resizing : Resizing) : AppState :=
  updateCurrentPage state (fun p =>
    { p with blocks := (getCurrentBlocks state).map (fun b =>
        if b.id == blockId then
          { b with width := resizing.startWidth,
                   height := resizing.startHeight,
                   x := resizing.startX, y := resizing.startY }
        else b) })

/-- The `beforeResizeState` of `handleResizeCompletion`'s group branch:
    every snapshotted block restored to its original geometry. -/
def preResizeGroupState (state : AppState)
    (originalBlocks : List OriginalBlock) : AppState :=
  updateCurrentPage state (fun p =>
    { p with blocks := (getCurrentBlocks state).map (fun b =>
        match originalBlocks.find? (fun o => o.id == b.id) with
        | some originalBlock =>
            { b with x := originalBlock.x, y := originalBlock.y,
                     width := originalBlock.width,
                     height := originalBlock.height }
        | none => b) })

/-- src/viewport.js `handleResizeCompletion`. -/
def handleResizeCompletion (state newState : AppState) : AppState :=
  match getCurrentPage state with
  | none => newState
  | some currentPage =>
    match currentPage.resizing with
    | none => newState
    | some resizing =>
      let blocks := getCurrentBlocks state
      match resizing.id with
      | .selectionBoundingBox =>
        match resizing.originalBlocks with
        | none => newState
        | some originalBlocks =>
          let hasAnyBlockChanged := resizeChangedCheck blocks originalBlocks
          if hasAnyBlockChanged then
            saveMementoAndReturn (preResizeGroupState state originalBlocks)
              newState
          else newState
      | .block blockId =>
        match blocks.find? (fun b => b.id == blockId) with
        | none => newState
        | some resizedBlock =>
          if resizedBlock.width ≠ resizing.startWidth ∨
             resizedBlock.height ≠ resizing.startHeight ∨
             resizedBlock.x ≠ resizing.startX ∨
             resizedBlock.y ≠ resizing.startY then
            saveMementoAndReturn (preResizeSingleState state blockId resizing)
              newState
          else newState

/-- The field reset of `onpointerup`: stop viewport dragging, clear the
    resize and drag records, restore the default cursor. -/
def clearGestureUpd (p : Page) : Page :=
  { p with isViewportDragging := false, resizing := none,
           dragStart := none, cursorStyle := "default" }

/-- Clearing the marquee record after finalizing the selection. -/
def clearBoxUpd (p : Page) : Page :=
  { p with selectionBox := none }

/-- src/viewport.js `onpointerup`. -/
def viewportOnPointerUp (state : AppState) : AppState :=
  match getCurrentPage state with
  | none => state
  | some currentPage =>
    let newState0 := updateCurrentPage state clearGestureUpd
    let newState :=
      match currentPage.selectionBox with
      | some selectionBox =>
          updateCurrentPage (handleSelectionBoxComplete newState0 selectionBox)
            clearBoxUpd
      | none => newState0
    if currentPage.dragStart.isSome then handleDragCompletion state newState
    else if currentPage.resizing.isSome then handleResizeCompletion state newState
    else newState

/-- A wheel event together with the `currentTarget` bounding rectangle. -/
structure WEvent where
  deltaX : ℚ
  deltaY : ℚ
  ctrlKey : Bool
  metaKey : Bool
  rectLeft : ℚ
  rectTop : ℚ
deriving DecidableEq

/-- src/viewport.js `onwheel`. -/
def viewportOnWheel (state : AppState) (event : WEvent) : AppState :=
  let isTrackpad := decide (|event.deltaY| < 50) && !event.ctrlKey
  match getCurrentPage state with
  | none => state
  | some page =>
    if isTrackpad then
      updateCurrentPage state (fun p =>
        { p with offsetX := page.offsetX - event.deltaX,
                 offsetY := page.offsetY - event.deltaY })
    else if event.ctrlKey || event.metaKey then
      let zoomDelta := -event.deltaY * (1/100)
      let newZoom := max (1/10) (min 5 (page.zoom + zoomDelta))
      let relativeMouseX := page.mouseX - event.rectLeft
      let relativeMouseY := page.mouseY - event.rectTop
      let zoomRatio := newZoom / page.zoom
      let newOffsetX := relativeMouseX - (relativeMouseX - page.offsetX) * zoomRatio
      let newOffsetY := relativeMouseY - (relativeMouseY - page.offsetY) * zoomRatio
      updateCurrentPage state (fun p =>
        { p with zoom := newZoom, offsetX := newOffsetX, offsetY := newOffsetY })
    else state

/-- Screen point to canvas point for a given offset/zoom, the transform used
    throughout the source (`getViewportCenterCoordinates` in src/viewport.js:
    `canvasX = (screenX - offsetX) / zoom`). -/
def screenToCanvas (offset : ℚ) (zoom : ℚ) (screen : ℚ) : ℚ :=
  (screen - offset) / zoom

/-- src/block.js `onpointerdown` for a block, given that the handler closure
    exists for the rendered block `block` of the current page.  When the
    handler returns without calling `stopPropagation` (missing page or
    multi-select), the event continues to the viewport `onpointerdown`. -/
def blockOnPointerDown (state : AppState) (blockId : Nat) (event : PEvent) : AppState :=
  match (getCurrentBlocks state).find? (fun b => b.id == blockId) with
  | none => state
  | some block =>
    match getCurrentPage state with
    | none => viewportOnPointerDown state event
    | some currentPage =>
      if 1 < (getSelectedBlocks state).length then
        viewportOnPointerDown state event
      else if currentPage.editingId == some blockId || currentPage.isInteractMode then
        state
      else if event.shiftKey then toggleBlockSelection state blockId
      else
        let selectedState := selectBlock state blockId
        updateCurrentPage selectedState (fun p =>
          { p with
              dragStart := some
                { id := blockId, startX := block.x, startY := block.y } })

/-- A page with default transient fields, for concrete test states. -/
def mkPage (id : String) (blocks : List Block) : Page :=
  { id := id, name := "page", blocks := blocks,
    offsetX := 0, offsetY := 0, zoom := 1, mouseX := 0, mouseY := 0,
    cursorStyle := "default", isViewportDragging := false,
    isTextEditorFocused := false, isInteractMode := false,
    selectedIds := [], editingId := none, hoveringId := none,
    resizing := none, dragStart := none, previewSelectedIds := [],
    selectionBox := none, progState := "", css := "" }

/-- A block with default non-geometric fields, for concrete test states. -/
def mkBlock (id : Nat) (x y w h : ℚ) : Block :=
  { id := id, x := x, y := y, width := w, height := h,
    zIndex := 0, imageSrc := "", pageSrc := "" }

/-- A state holding the given pages, fresh memento manager, shift up. -/
def mkState (pages : List Page) (currentPageId : String) : AppState :=
  { pages := pages, currentPageId := currentPageId,
    mementoManager := createMementoManager, isShiftPressed := false }

/- ------------------------------------------------------------------ -/
/- Basic lemmas about `getCurrentPage` / `updateCurrentPage`.          -/
/- ------------------------------------------------------------------ -/

theorem getCurrentPage_mem {s : AppState} {p : Page}
    (h : getCurrentPage s = some p) : p ∈ s.pages :=
  List.mem_of_find?_eq_some h

theorem getCurrentPage_id {s : AppState} {p : Page}
    (h : getCurrentPage s = some p) : p.id = s.currentPageId := by
  have := List.find?_some h
  simpa using this

theorem getCurrentPage_eq_none {s : AppState}
    (h : getCurrentPage s = none) : ∀ p ∈ s.pages, p.id ≠ s.currentPageId := by
  intro p hp
  have := List.find?_eq_none.mp h p hp
  simpa using this

theorem updateCurrentPage_currentPageId (s : AppState) (upd : Page → Page) :
    (updateCurrentPage s upd).currentPageId = s.currentPageId := rfl

theorem updateCurrentPage_mementoManager (s : AppState) (upd : Page → Page) :
    (updateCurrentPage s upd).mementoManager = s.mementoManager := rfl

theorem updateCurrentPage_isShiftPressed (s : AppState) (upd : Page → Page) :
    (updateCurrentPage s upd).isShiftPressed = s.isShiftPressed := rfl

theorem getCurrentPage_updateCurrentPage (s : AppState) (upd : Page → Page)
    (hid : ∀ p, (upd p).id = p.id) :
    getCurrentPage (updateCurrentPage s upd) = Option.map upd (getCurrentPage s) := by
  show (s.pages.map fun p => if p.id == s.currentPageId then upd p else p).find?
        (fun p => p.id == s.currentPageId) = _
  unfold getCurrentPage
  induction s.pages with
  | nil => rfl
  | cons p ps ih =>
      by_cases h : p.id == s.currentPageId
      · have h' : p.id = s.currentPageId := by simpa using h
        simp [List.find?_cons, hid, h']
      · simp only [List.map_cons, List.find?_cons, h, cond_false]
        simpa [h] using ih

/- ------------------------------------------------------------------ -/
/- C2: what `createMemento` resets and what it carries over.           -/
/- ------------------------------------------------------------------ -/

/-- A state whose single page is in the middle of a marquee gesture with a
    non-empty preview selection (and also has a selection and a drag
    record, which the snapshot does reset). -/
def c2state : AppState :=
  mkState
    [{ mkPage "p" [mkBlock 1 0 0 100 100] with
         selectedIds := [2]
         dragStart := some { id := 2, startX := 0, startY := 0 }
         previewSelectedIds := [1]
         selectionBox := some { startX := 0, startY := 0, currentX := 5, currentY := 5 } }]
    "p"

/-- C2, counterexample: the claim says every memento snapshot has
    `previewSelectedIds` and `selectionBox` reset; but `createMemento` only
    resets `selectedIds`, `dragStart` and `resizing`, so the snapshot of
    `c2state` still carries the in-progress marquee state. -/
theorem c2_counterexample :
    ((createMemento c2state).pages.all
      (fun p => p.previewSelectedIds.isEmpty && p.selectionBox.isNone)) = false ∧
    (createMemento c2state).pages.map Page.previewSelectedIds = [[1]] ∧
    (createMemento c2state).pages.map Page.selectionBox =
      [some { startX := 0, startY := 0, currentX := 5, currentY := 5 }] := by
  refine ⟨rfl, rfl, rfl⟩

/-- C2, amended: `createMemento` deep-copies every page with `selectedIds`,
    `dragStart` and `resizing` reset, while `previewSelectedIds` and
    `selectionBox` (and all structural fields) are carried over unchanged;
    `currentPageId` is preserved. -/
theorem c2_amended (s : AppState) :
    (createMemento s).currentPageId = s.currentPageId ∧
    List.Forall₂ (fun (orig snap : Page) =>
        snap.selectedIds = [] ∧ snap.dragStart = none ∧ snap.resizing = none ∧
        snap.previewSelectedIds = orig.previewSelectedIds ∧
        snap.selectionBox = orig.selectionBox ∧
        snap.blocks = orig.blocks ∧ snap.id = orig.id ∧ snap.name = orig.name ∧
        snap.offsetX = orig.offsetX ∧ snap.offsetY = orig.offsetY ∧
        snap.zoom = orig.zoom ∧ snap.editingId = orig.editingId ∧
        snap.hoveringId = orig.hoveringId)
      s.pages (createMemento s).pages := by
  refine ⟨rfl, ?_⟩
  show List.Forall₂ _ s.pages (s.pages.map cleanPage)
  induction s.pages with
  | nil => exact List.Forall₂.nil
  | cons p ps ih =>
      exact List.Forall₂.cons
        ⟨rfl, rfl, rfl, rfl, rfl, rfl, rfl, rfl, rfl, rfl, rfl, rfl, rfl⟩ ih

/- ------------------------------------------------------------------ -/
/- C1 and C4: committed mutations, undo and redo.                      -/
/- ------------------------------------------------------------------ -/

/-- The `pages`/`currentPageId` payload of one committed structural mutation:
    every caller of `saveMementoAndReturn` in the source passes the
    pre-mutation state together with a new state that differs from it in
    `pages` and/or `currentPageId`. -/
structure Mutation where
  pages : List Page
  currentPageId : String

/-- Commit one structural mutation through `saveMementoAndReturn`. -/
def commitMutation (s : AppState) (m : Mutation) : AppState :=
  saveMementoAndReturn s { s with pages := m.pages, currentPageId := m.currentPageId }

/-- Run a list of committed mutations left to right. -/
def applyCommits (s : AppState) : List Mutation → AppState
  | [] => s
  | m :: ms => applyCommits (commitMutation s m) ms

/-- n-fold application of a state transformer. -/
def applyN (f : AppState → AppState) : Nat → AppState → AppState
  | 0, s => s
  | n + 1, s => applyN f n (f s)

theorem pushBounded_ne_nil (maxSize : Nat) (m : Memento) (stack : List Memento) :
    pushBounded maxSize m stack ≠ [] := by
  unfold pushBounded
  split
  · simp
  · rename_i hmax
    match maxSize, hmax with
    | n + 1, _ => simp

/-- After at least one committed mutation the redo stack is empty and the
    undo stack is non-empty. -/
theorem applyCommits_stacks (s : AppState) (ms : List Mutation) (h : ms ≠ []) :
    (applyCommits s ms).mementoManager.redoStack = [] ∧
    (applyCommits s ms).mementoManager.undoStack ≠ [] := by
  induction ms generalizing s with
  | nil => exact absurd rfl h
  | cons m rest ih =>
      cases rest with
      | nil =>
          exact ⟨rfl, pushBounded_ne_nil _ _ _⟩
      | cons m2 r2 => exact ih (commitMutation s m) (by simp)

theorem applyN_redoState_of_empty (n : Nat) (s : AppState)
    (h : s.mementoManager.redoStack = []) : applyN redoState n s = s := by
  induction n with
  | zero => rfl
  | succ n ih =>
      have hfix : redoState s = s := by
        unfold redoState
        rw [h]
      show applyN redoState n (redoState s) = s
      rw [hfix]
      exact ih

/-- The redo phase: if the redo stack is `l ++ [m]` (top at the head) then
    at least `l.length + 1` redos restore `m`. -/
theorem redo_phase (l : List Memento) (m : Memento) :
    ∀ (s : AppState) (k : Nat),
      s.mementoManager.redoStack = l ++ [m] → l.length + 1 ≤ k →
      (applyN redoState k s).pages = m.pages ∧
      (applyN redoState k s).currentPageId = m.currentPageId := by
  induction l with
  | nil =>
      intro s k h hk
      obtain ⟨k', rfl⟩ : ∃ k', k = k' + 1 := ⟨k - 1, by omega⟩
      have hredo :
          redoState s =
            { s with
                pages := m.pages
                currentPageId := m.currentPageId
                mementoManager :=
                  { s.mementoManager with
                      undoStack := createMemento s :: s.mementoManager.undoStack
                      redoStack := [] } } := by
        unfold redoState
        rw [h]
        rfl
      show (applyN redoState k' (redoState s)).pages = _ ∧
        (applyN redoState k' (redoState s)).currentPageId = _
      rw [hredo, applyN_redoState_of_empty k' _ rfl]
      exact ⟨rfl, rfl⟩
  | cons a l ih =>
      intro s k h hk
      obtain ⟨k', rfl⟩ : ∃ k', k = k' + 1 := ⟨k - 1, by omega⟩
      have hredo :
          (redoState s).mementoManager.redoStack = l ++ [m] := by
        unfold redoState
        rw [h]
        rfl
      exact ih (redoState s) k' hredo
        (by simp only [List.length_cons] at hk; omega)

/-- The undo phase: n undos push at most n snapshots on the redo stack, the
    deepest one being the snapshot of the starting state (when any undo was
    effective at all). -/
theorem undo_phase (n : Nat) :
    ∀ s : AppState,
      ∃ l : List Memento,
        (applyN undoState n s).mementoManager.redoStack =
          l ++ s.mementoManager.redoStack ∧
        l.length ≤ n ∧
        (s.mementoManager.undoStack ≠ [] → n ≠ 0 →
          ∃ l', l = l' ++ [createMemento s]) := by
  induction n with
  | zero =>
      intro s
      exact ⟨[], rfl, by simp, fun _ h => absurd rfl h⟩
  | succ n ih =>
      intro s
      cases hu : s.mementoManager.undoStack with
      | nil =>
          have hfix : undoState s = s := by
            unfold undoState
            rw [hu]
          obtain ⟨l, h1, h2, h3⟩ := ih s
          refine ⟨l, ?_, by omega, fun hne _ => absurd rfl hne⟩

          show (applyN undoState n (undoState s)).mementoManager.redoStack = _
          rw [hfix]
          exact h1
      | cons mem rest =>
          have hs1 :
              (undoState s).mementoManager.redoStack =
                createMemento s :: s.mementoManager.redoStack := by
            unfold undoState
            rw [hu]
          obtain ⟨l1, h1, h2, h3⟩ := ih (undoState s)
          refine ⟨l1 ++ [createMemento s], ?_, by simp; omega, fun _ _ => ⟨l1, rfl⟩⟩
          show (applyN undoState n (undoState s)).mementoManager.redoStack = _
          rw [h1, hs1]
          simp

/-- Undo n times then redo n times lands on the snapshot of the start. -/
theorem roundtrip_core (s : AppState) (n : Nat)
    (hr : s.mementoManager.redoStack = [])
    (hu : s.mementoManager.undoStack ≠ [])
    (hn : n ≠ 0) :
    (applyN redoState n (applyN undoState n s)).pages = (createMemento s).pages ∧
    (applyN redoState n (applyN undoState n s)).currentPageId = s.currentPageId := by
  obtain ⟨l, h1, h2, h3⟩ := undo_phase n s
  obtain ⟨l', rfl⟩ := h3 hu hn
  rw [hr, List.append_nil] at h1
  have hk : l'.length + 1 ≤ n := by
    have : (l' ++ [createMemento s]).length = l'.length + 1 := by simp
    omega
  have h := redo_phase l' (createMemento s) (applyN undoState n s) n h1 hk
  exact ⟨h.1, h.2⟩

/-- C1: undo/redo round-trip.  For every initial state and every sequence of
    committed structural mutations, undoing n times and then redoing n times
    (n the number of mutations) yields a state whose `pages` agree with the
    post-mutation state modulo the transient fields that snapshots reset
    (`selectedIds`, `dragStart`, `resizing`), and whose `currentPageId` is
    the post-mutation one. -/
theorem c1_undo_redo_roundtrip (s0 : AppState) (ms : List Mutation) :
    (applyN redoState ms.length
        (applyN undoState ms.length (applyCommits s0 ms))).pages.map cleanPage =
      (applyCommits s0 ms).pages.map cleanPage ∧
    (applyN redoState ms.length
        (applyN undoState ms.length (applyCommits s0 ms))).currentPageId =
      (applyCommits s0 ms).currentPageId := by
  match hm : ms with
  | [] => exact ⟨rfl, rfl⟩
  | m :: rest =>
      have hne : (m :: rest) ≠ ([] : List Mutation) := by simp
      obtain ⟨hr, hu⟩ := applyCommits_stacks s0 (m :: rest) hne
      have hn : (m :: rest).length ≠ 0 := by simp
      obtain ⟨h1, h2⟩ := roundtrip_core (applyCommits s0 (m :: rest)) (m :: rest).length hr hu hn
      constructor
      · rw [h1]
        show ((applyCommits s0 (m :: rest)).pages.map cleanPage).map cleanPage = _
        rw [List.map_map]
        congr 1
      · exact h2

/-- An operation on the memento manager: a committed mutation, an undo, or a
    redo (the three ways the source touches the stacks). -/
inductive MOp where
  | commit (m : Mutation)
  | undo
  | redo

/-- Apply one memento-manager operation. -/
def applyMOp (s : AppState) : MOp → AppState
  | .commit m => commitMutation s m
  | .undo => undoState s
  | .redo => redoState s

/-- Run a list of operations left to right. -/
def runMOps (s : AppState) (ops : List MOp) : AppState :=
  ops.foldl applyMOp s

/-- The stack-size invariant: history limit 50 and the two stacks together
    hold at most 50 mementos. -/
def HistInv (s : AppState) : Prop :=
  s.mementoManager.maxHistorySize = 50 ∧
  s.mementoManager.undoStack.length + s.mementoManager.redoStack.length ≤ 50

theorem histInv_commitMutation (s : AppState) (m : Mutation) (h : HistInv s) :
    HistInv (commitMutation s m) := by
  obtain ⟨hm, _⟩ := h
  refine ⟨hm, ?_⟩
  show (pushBounded s.mementoManager.maxHistorySize (createMemento s)
          s.mementoManager.undoStack).length + 0 ≤ 50
  rw [hm]
  unfold pushBounded
  simp [List.length_take]

theorem histInv_undoState (s : AppState) (h : HistInv s) : HistInv (undoState s) := by
  obtain ⟨hm, hl⟩ := h
  cases hu : s.mementoManager.undoStack with
  | nil =>
      unfold undoState
      rw [hu]
      exact ⟨hm, hl⟩
  | cons mem rest =>
      rw [hu] at hl
      unfold undoState
      rw [hu]
      refine ⟨hm, ?_⟩
      show rest.length + (createMemento s :: s.mementoManager.redoStack).length ≤ 50
      simp only [List.length_cons] at hl ⊢
      omega

theorem histInv_redoState (s : AppState) (h : HistInv s) : HistInv (redoState s) := by
  obtain ⟨hm, hl⟩ := h
  cases hr : s.mementoManager.redoStack with
  | nil =>
      unfold redoState
      rw [hr]
      exact ⟨hm, hl⟩
  | cons mem rest =>
      rw [hr] at hl
      unfold redoState
      rw [hr]
      refine ⟨hm, ?_⟩
      show (createMemento s :: s.mementoManager.undoStack).length + rest.length ≤ 50
      simp only [List.length_cons] at hl ⊢
      omega

theorem histInv_runMOps (ops : List MOp) :
    ∀ s : AppState, HistInv s → HistInv (runMOps s ops) := by
  induction ops with
  | nil => intro s h; exact h
  | cons op ops ih =>
      intro s h
      show HistInv (runMOps (applyMOp s op) ops)
      refine ih _ ?_
      cases op with
      | commit m => exact histInv_commitMutation s m h
      | undo => exact histInv_undoState s h
      | redo => exact histInv_redoState s h

/-- Taking `m ≤ k` elements is not affected by first truncating the second
    list to `k` elements. -/
theorem take_append_take {α : Type _} (x : List α) (y : List α) (m k : Nat)
    (h : m ≤ k) : (x ++ y.take k).take m = (x ++ y).take m := by
  induction x generalizing m with
  | nil =>
      simp [List.take_take, Nat.min_eq_left h]
  | cons a x ih =>
      cases m with
      | zero => simp
      | succ m =>
          simp only [List.cons_append, List.take_succ_cons]
          rw [ih m (le_trans (Nat.le_succ m) h)]

/-- The snapshots pushed by a run of committed mutations, newest first. -/
def commitMementos (s : AppState) : List Mutation → List Memento
  | [] => []
  | m :: ms => commitMementos (commitMutation s m) ms ++ [createMemento s]

theorem commitMementos_length (ms : List Mutation) :
    ∀ s : AppState, (commitMementos s ms).length = ms.length := by
  induction ms with
  | nil => intro s; rfl
  | cons m ms ih =>
      intro s
      show (commitMementos (commitMutation s m) ms ++ [createMemento s]).length = _
      simp [ih]

theorem commitMutation_maxHistorySize (s : AppState) (m : Mutation) :
    (commitMutation s m).mementoManager.maxHistorySize =
      s.mementoManager.maxHistorySize := rfl

theorem commitMutation_undoStack (s : AppState) (m : Mutation)
    (hm : s.mementoManager.maxHistorySize = 50) :
    (commitMutation s m).mementoManager.undoStack =
      (createMemento s :: s.mementoManager.undoStack).take 50 := by
  show pushBounded s.mementoManager.maxHistorySize (createMemento s)
        s.mementoManager.undoStack = _
  rw [hm]
  rfl

/-- The undo stack after a run of commits is the 50 newest pushed snapshots
    (on top of whatever fits of the initial stack). -/
theorem applyCommits_undoStack (ms : List Mutation) :
    ∀ s : AppState, s.mementoManager.maxHistorySize = 50 →
      s.mementoManager.undoStack.length ≤ 50 →
      (applyCommits s ms).mementoManager.undoStack =
        (commitMementos s ms ++ s.mementoManager.undoStack).take 50 := by
  induction ms with
  | nil =>
      intro s _ hl
      show s.mementoManager.undoStack = s.mementoManager.undoStack.take 50
      rw [List.take_of_length_le hl]
  | cons m ms ih =>
      intro s hm hl
      have hm' := commitMutation_maxHistorySize s m
      rw [hm] at hm'
      have hstack := commitMutation_undoStack s m hm
      have hl' : (commitMutation s m).mementoManager.undoStack.length ≤ 50 := by
        rw [hstack]
        simp [List.length_take]
      show (applyCommits (commitMutation s m) ms).mementoManager.undoStack = _
      rw [ih _ hm' hl', hstack, take_append_take _ _ 50 50 le_rfl]
      congr 1
      show commitMementos (commitMutation s m) ms ++
            createMemento s :: s.mementoManager.undoStack =
          (commitMementos (commitMutation s m) ms ++ [createMemento s]) ++
            s.mementoManager.undoStack
      simp

/-- C4: the undo stack is bounded by 50 under any interleaving of committed
    mutations, undos and redos starting from a fresh memento manager; and
    after exactly 51 committed mutations it holds exactly 50 snapshots,
    namely all pushed snapshots except the oldest one (the snapshot of the
    initial state), with the redo stack cleared. -/
theorem c4_undo_stack_bound :
    (∀ (s0 : AppState) (ops : List MOp),
        s0.mementoManager = createMementoManager →
        (runMOps s0 ops).mementoManager.undoStack.length ≤ 50) ∧
    (∀ (s0 : AppState) (ms : List Mutation),
        s0.mementoManager = createMementoManager →
        ms.length = 51 →
        (applyCommits s0 ms).mementoManager.undoStack.length = 50 ∧
        (applyCommits s0 ms).mementoManager.undoStack =
          (commitMementos s0 ms).dropLast ∧
        (commitMementos s0 ms).getLast? = some (createMemento s0) ∧
        (applyCommits s0 ms).mementoManager.redoStack = []) := by
  constructor
  · intro s0 ops h0
    have hinv : HistInv s0 := by
      rw [HistInv, h0]
      exact ⟨rfl, by simp [createMementoManager]⟩
    obtain ⟨-, hsum⟩ := histInv_runMOps ops s0 hinv
    omega
  · intro s0 ms h0 hlen
    have hm : s0.mementoManager.maxHistorySize = 50 := by rw [h0]; rfl
    have hu0 : s0.mementoManager.undoStack = [] := by rw [h0]; rfl
    have hchar := applyCommits_undoStack ms s0 hm (by rw [hu0]; simp)
    rw [hu0, List.append_nil] at hchar
    have hcl : (commitMementos s0 ms).length = 51 := by
      rw [commitMementos_length ms s0, hlen]
    have hdl : (commitMementos s0 ms).take 50 = (commitMementos s0 ms).dropLast := by
      rw [List.dropLast_eq_take, hcl]
    have hne : ms ≠ [] := by
      cases ms with
      | nil => simp at hlen
      | cons m rest => simp
    refine ⟨?_, ?_, ?_, (applyCommits_stacks s0 ms hne).1⟩
    · rw [hchar]
      simp [List.length_take, hcl]
    · rw [hchar, hdl]
    · cases ms with
      | nil => simp at hlen
      | cons m rest =>
          show (commitMementos (commitMutation s0 m) rest ++
                 [createMemento s0]).getLast? = _
          simp

/- ------------------------------------------------------------------ -/
/- C5: resize minimum-size invariant.                                  -/
/- ------------------------------------------------------------------ -/

theorem getCurrentBlocks_subset (s : AppState) :
    ∀ b ∈ getCurrentBlocks s, ∃ p ∈ s.pages, b ∈ p.blocks := by
  intro b hb
  unfold getCurrentBlocks at hb
  cases hcp : getCurrentPage s with
  | none => rw [hcp] at hb; cases hb
  | some p =>
      rw [hcp] at hb
      exact ⟨p, getCurrentPage_mem hcp, hb⟩

theorem updateCurrentPage_blocks_pred (s : AppState) (upd : Page → Page)
    (C : Block → Prop)
    (H : ∀ p ∈ s.pages, ∀ b' ∈ (upd p).blocks, C b')
    (Hold : ∀ p ∈ s.pages, ∀ b' ∈ p.blocks, C b') :
    ∀ p' ∈ (updateCurrentPage s upd).pages, ∀ b' ∈ p'.blocks, C b' := by
  intro p' hp'
  obtain ⟨p, hp, rfl⟩ := List.mem_map.mp hp'
  by_cases h : p.id == s.currentPageId
  · rw [if_pos h]
    exact H p hp
  · rw [if_neg h]
    exact Hold p hp

theorem groupResizeBlock_spec (resizing : Resizing)
    (originalBlocks : List OriginalBlock) (newBBox : Rect) (scaleX scaleY : ℚ)
    (b : Block) :
    groupResizeBlock resizing originalBlocks newBBox scaleX scaleY b = b ∨
    (MIN_SIZE ≤ (groupResizeBlock resizing originalBlocks newBBox scaleX scaleY b).width ∧
     MIN_SIZE ≤ (groupResizeBlock resizing originalBlocks newBBox scaleX scaleY b).height) := by
  unfold groupResizeBlock
  cases originalBlocks.find? (fun o => o.id == b.id) with
  | none => exact Or.inl rfl
  | some o => exact Or.inr ⟨le_max_left _ _, le_max_left _ _⟩

theorem singleResizeBlock_spec (blockId : Nat) (newDimensions : Rect)
    (w h : ℚ) (b : Block) :
    singleResizeBlock blockId newDimensions (max MIN_SIZE w) (max MIN_SIZE h) b = b ∨
    (MIN_SIZE ≤ (singleResizeBlock blockId newDimensions
        (max MIN_SIZE w) (max MIN_SIZE h) b).width ∧
     MIN_SIZE ≤ (singleResizeBlock blockId newDimensions
        (max MIN_SIZE w) (max MIN_SIZE h) b).height) := by
  unfold singleResizeBlock
  by_cases hid : b.id == blockId
  · rw [if_pos hid]
    exact Or.inr ⟨le_max_left _ _, le_max_left _ _⟩
  · rw [if_neg hid]
    exact Or.inl rfl

/-- C5: resize minimum-size invariant.  Every block in the state produced by
    a resize pointer-move is either an untouched block of the input state or
    has `width ≥ MIN_SIZE` and `height ≥ MIN_SIZE`; this holds for every
    handle, every pointer position, with or without the shift aspect-ratio
    lock, and in both the single-block and the group branch. -/
theorem c5_resize_min_size (s : AppState) (e : PEvent) :
    ∀ p' ∈ (handleResizePointerMove s e).pages, ∀ b' ∈ p'.blocks,
      (∃ p ∈ s.pages, b' ∈ p.blocks) ∨
      (MIN_SIZE ≤ b'.width ∧ MIN_SIZE ≤ b'.height) := by
  have base : ∀ p' ∈ s.pages, ∀ b' ∈ p'.blocks,
      (∃ p ∈ s.pages, b' ∈ p.blocks) ∨
      (MIN_SIZE ≤ b'.width ∧ MIN_SIZE ≤ b'.height) :=
    fun p' hp' b' hb' => Or.inl ⟨p', hp', hb'⟩
  have mapped :
      ∀ (g : Block → Block),
        (∀ b, g b = b ∨ (MIN_SIZE ≤ (g b).width ∧ MIN_SIZE ≤ (g b).height)) →
        ∀ b' ∈ (getCurrentBlocks s).map g,
          (∃ p ∈ s.pages, b' ∈ p.blocks) ∨
          (MIN_SIZE ≤ b'.width ∧ MIN_SIZE ≤ b'.height) := by
    intro g hg b' hb'
    obtain ⟨b, hb, rfl⟩ := List.mem_map.mp hb'
    cases hg b with
    | inl heq => rw [heq]; exact Or.inl (getCurrentBlocks_subset s b hb)
    | inr hsz => exact Or.inr hsz
  unfold handleResizePointerMove
  split
  · exact base
  · split
    · exact base
    · dsimp only
      split
      · split
        · exact base
        · refine updateCurrentPage_blocks_pred s _ _ ?_ base
          intro p hp
          exact mapped _ (groupResizeBlock_spec _ _ _ _ _)
      · split
        · exact base
        · refine updateCurrentPage_blocks_pred s _ _ ?_ base
          intro p hp
          exact mapped _ (singleResizeBlock_spec _ _ _ _)

/- ------------------------------------------------------------------ -/
/- C6: group-resize proportionality.                                   -/
/- ------------------------------------------------------------------ -/

/-- The pointer position in canvas coordinates, as computed at the top of
    `handleResizePointerMove`. -/
def canvasPosOfEvent (s : AppState) (e : PEvent) : HandlerPos :=
  { percentX := (e.clientX - e.canvasRectLeft) / (getCurrentViewport s).zoom,
    percentY := (e.clientY - e.canvasRectTop) / (getCurrentViewport s).zoom }

/-- The per-handle transform applied to the selection's start bounding box
    (the `virtualBoundingBox` of the group branch). -/
def groupVirtualNewBBox (s : AppState) (e : PEvent) (rz : Resizing) : Rect :=
  RESIZE_HANDLERS rz.handle
    { x := rz.startX, y := rz.startY, width := rz.startWidth, height := rz.startHeight }
    (canvasPosOfEvent s e)

theorem getCurrentBlocks_of_page {s : AppState} {page : Page}
    (h : getCurrentPage s = some page) : getCurrentBlocks s = page.blocks := by
  unfold getCurrentBlocks
  rw [h]

theorem getCurrentPage_setBlocks (s : AppState) (bs : List Block) :
    getCurrentPage (updateCurrentPage s (fun p => { p with blocks := bs })) =
      Option.map (fun p => { p with blocks := bs }) (getCurrentPage s) :=
  getCurrentPage_updateCurrentPage s _ (fun _ => rfl)

/-- The group-resize record of the spec's example: `se` handle on the
    `(0,0,150,100)` bounding box of blocks A and B. -/
def c6rz : Resizing :=
  { id := ResizeTarget.selectionBoundingBox, handle := Handle.se,
    startWidth := 150, startHeight := 100, startX := 0, startY := 0,
    originalBlocks := some
      [{ id := 1, x := 0, y := 0, width := 100, height := 100 },
       { id := 2, x := 100, y := 0, width := 50, height := 50 }] }

/-- The page of the spec's group-resize example. -/
def c6page : Page :=
  { mkPage "p" [mkBlock 1 0 0 100 100, mkBlock 2 100 0 50 50] with
      selectedIds := [1, 2]
      resizing := some c6rz }

/-- The state of the spec's group-resize example. -/
def c6state : AppState := mkState [c6page] "p"

/-- The pointer-move to canvas point (300,200) of the example. -/
def c6event : PEvent :=
  { clientX := 300, clientY := 200, button := 0, shiftKey := false,
    canvasRectLeft := 0, canvasRectTop := 0 }

/-- C6: group resize applies the per-handle function to the selection's start
    bounding box and then re-projects every originally-selected block onto
    the new box by its fraction of the original box:
    `newX = newBBox.x + ((origX - bboxX)/bboxW) * newBBox.width` and
    `newWidth = max MIN_SIZE (origWidth * (newBBox.width / bboxW))` (same for
    y/height); blocks without an `originalBlocks` entry are untouched.  In
    particular, scaling A `(0,0,100,100)` and B `(100,0,50,50)` via the `se`
    handle of their `(0,0,150,100)` bounding box to pointer `(300,200)`
    yields A `(0,0,200,200)` and B `(200,0,100,100)`. -/
theorem c6_group_resize_proportionality :
    (∀ (s : AppState) (e : PEvent) (page : Page) (rz : Resizing)
        (obs : List OriginalBlock),
      getCurrentPage s = some page →
      page.resizing = some rz →
      rz.id = ResizeTarget.selectionBoundingBox →
      rz.originalBlocks = some obs →
      s.isShiftPressed = false →
      ∃ pageR, getCurrentPage (handleResizePointerMove s e) = some pageR ∧
        List.Forall₂ (fun (b b' : Block) =>
          match obs.find? (fun o => o.id == b.id) with
          | none => b' = b
          | some o =>
              b'.x = (groupVirtualNewBBox s e rz).x +
                ((o.x - rz.startX) / rz.startWidth) * (groupVirtualNewBBox s e rz).width ∧
              b'.y = (groupVirtualNewBBox s e rz).y +
                ((o.y - rz.startY) / rz.startHeight) * (groupVirtualNewBBox s e rz).height ∧
              b'.width = max MIN_SIZE
                (o.width * ((groupVirtualNewBBox s e rz).width / rz.startWidth)) ∧
              b'.height = max MIN_SIZE
                (o.height * ((groupVirtualNewBBox s e rz).height / rz.startHeight)))
          page.blocks pageR.blocks) ∧
    getCurrentBlocks (handleResizePointerMove c6state c6event) =
      [mkBlock 1 0 0 200 200, mkBlock 2 200 0 100 100] := by
  constructor
  · intro s e page rz obs h1 h2 h3 h4 h5
    simp only [handleResizePointerMove, h1, h2, h3, h4, h5, Bool.false_eq_true,
      if_false]
    rw [getCurrentPage_setBlocks, h1]
    refine ⟨_, rfl, ?_⟩
    show List.Forall₂ _ page.blocks ((getCurrentBlocks s).map _)
    rw [getCurrentBlocks_of_page h1, List.forall₂_map_right_iff, List.forall₂_same]
    intro b hb
    cases hfind : obs.find? (fun o => o.id == b.id) with
    | none =>
        simp only [hfind]
        unfold groupResizeBlock
        rw [hfind]
    | some o =>
        simp only [hfind]
        unfold groupResizeBlock
        rw [hfind]
        exact ⟨rfl, rfl, rfl, rfl⟩
  · simp only [handleResizePointerMove, getCurrentPage, getCurrentBlocks,
      getCurrentViewport, updateCurrentPage, mkState, mkPage, mkBlock,
      createMementoManager, RESIZE_HANDLERS, groupResizeBlock, MIN_SIZE,
      c6state, c6page, c6rz, c6event, List.find?, List.map]
    norm_num [show ((1:ℕ) == 2) = false from rfl, show ((2:ℕ) == 2) = true from rfl,
      show ((1:ℕ) == 1) = true from rfl, show ((2:ℕ) == 1) = false from rfl]

/- ------------------------------------------------------------------ -/
/- C8: marquee intersection.                                           -/
/- ------------------------------------------------------------------ -/

theorem jsSetDedup_mem (l : List Nat) (x : Nat) : x ∈ jsSetDedup l ↔ x ∈ l := by
  induction l using jsSetDedup.induct with
  | case1 => simp [jsSetDedup]
  | case2 a rest ih =>
      rw [jsSetDedup]
      simp only [List.mem_cons, ih, List.mem_filter]
      constructor
      · rintro (rfl | ⟨hmem, _⟩)
        · exact Or.inl rfl
        · exact Or.inr hmem
      · rintro (rfl | hmem)
        · exact Or.inl rfl
        · by_cases hx : x = a
          · exact Or.inl hx
          · exact Or.inr ⟨hmem, by simpa using hx⟩

/-- The page with one block `(10,10,20,20)` used by the spec's marquee
    example. -/
def c8page : Page := mkPage "p" [mkBlock 7 10 10 20 20]

/-- The state of the spec's marquee example. -/
def c8state : AppState := mkState [c8page] "p"

/-- C8: a block id is in the computed preview selection iff its block
    intersects the marquee rectangle (shift additionally unions the existing
    selection); the intersection test accepts touching edges (it is the
    conjunction of non-strict comparisons); and on the spec's example the
    block `(10,10,20,20)` is selected by the marquee from `(0,0)` to
    `(15,15)` and not by the one from `(100,100)` to `(110,110)`. -/
theorem c8_marquee_intersection :
    (∀ (s : AppState) (box : SelectionBox) (page : Page),
      getCurrentPage s = some page →
      ∀ bid : Nat,
        bid ∈ calculatePreviewSelection s box ↔
          ((s.isShiftPressed = true ∧ bid ∈ page.selectedIds) ∨
           ∃ b ∈ page.blocks, blockIntersectsBox b box = true ∧ b.id = bid)) ∧
    (∀ (b : Block) (box : SelectionBox),
      blockIntersectsBox b box = true ↔
        (b.x ≤ max box.startX box.currentX ∧
         min box.startX box.currentX ≤ b.x + b.width ∧
         b.y ≤ max box.startY box.currentY ∧
         min box.startY box.currentY ≤ b.y + b.height)) ∧
    calculatePreviewSelection c8state
      { startX := 0, startY := 0, currentX := 15, currentY := 15 } = [7] ∧
    calculatePreviewSelection c8state
      { startX := 100, startY := 100, currentX := 110, currentY := 110 } = [] := by
  refine ⟨?_, ?_, ?_, ?_⟩
  · intro s box page h bid
    have hblocks := getCurrentBlocks_of_page h
    cases hs : s.isShiftPressed with
    | false =>
        simp only [calculatePreviewSelection, h, hs, hblocks, Bool.false_eq_true,
          if_false, List.mem_map, List.mem_filter, false_and, false_or]
        constructor
        · rintro ⟨b, ⟨hb, hint⟩, rfl⟩
          exact ⟨b, hb, hint, rfl⟩
        · rintro ⟨b, hb, hint, rfl⟩
          exact ⟨b, ⟨hb, hint⟩, rfl⟩
    | true =>
        simp only [calculatePreviewSelection, h, hs, hblocks, if_true,
          jsSetDedup_mem, List.mem_append, List.mem_map, List.mem_filter,
          true_and]
        constructor
        · rintro (hsel | ⟨b, ⟨hb, hint⟩, rfl⟩)
          · exact Or.inl hsel
          · exact Or.inr ⟨b, hb, hint, rfl⟩
        · rintro (hsel | ⟨b, hb, hint, rfl⟩)
          · exact Or.inl hsel
          · exact Or.inr ⟨b, ⟨hb, hint⟩, rfl⟩
  · intro b box
    unfold blockIntersectsBox
    simp only [Bool.or_eq_true, Bool.not_eq_true', Bool.or_eq_false_iff,
      decide_eq_false_iff_not, not_lt, not_or]
    constructor
    · rintro ⟨⟨⟨h1, h2⟩, h3⟩, h4⟩
      exact ⟨h1, h2, h3, h4⟩
    · rintro ⟨h1, h2, h3, h4⟩
      exact ⟨⟨⟨h1, h2⟩, h3⟩, h4⟩
  · simp only [calculatePreviewSelection, c8state, c8page, mkState, mkPage,
      mkBlock, getCurrentPage, getCurrentBlocks, blockIntersectsBox,
      List.find?, List.filter, List.map]
    norm_num
  · simp only [calculatePreviewSelection, c8state, c8page, mkState, mkPage,
      mkBlock, getCurrentPage, getCurrentBlocks, blockIntersectsBox,
      List.find?, List.filter, List.map]
    norm_num

/- ------------------------------------------------------------------ -/
/- C7: wheel zoom and pointer anchoring.                               -/
/- ------------------------------------------------------------------ -/

theorem getCurrentPage_setZoomOffsets (s : AppState) (z ox oy : ℚ) :
    getCurrentPage (updateCurrentPage s
        (fun p => { p with zoom := z, offsetX := ox, offsetY := oy })) =
      Option.map (fun p => { p with zoom := z, offsetX := ox, offsetY := oy })
        (getCurrentPage s) :=
  getCurrentPage_updateCurrentPage s _ (fun _ => rfl)

/-- A page at zoom 1 with the mouse at the origin. -/
def c7state : AppState := mkState [mkPage "p" []] "p"

/-- A cmd-only wheel event with a small delta. -/
def c7event : WEvent :=
  { deltaX := 0, deltaY := -10, ctrlKey := false, metaKey := true,
    rectLeft := 0, rectTop := 0 }

/-- C7, counterexample: the claim says every ctrl/cmd wheel event sets the
    zoom to `clamp(zoom - deltaY*0.01, 0.1, 5)`; but a metaKey-only wheel
    with `|deltaY| < 50` is classified as a trackpad pan (`isTrackpad`
    requires only `!ctrlKey`), so the zoom stays 1 instead of becoming
    1.1 and the offset pans instead. -/
theorem c7_counterexample :
    c7event.metaKey = true ∧
    (getCurrentPage (viewportOnWheel c7state c7event)).map Page.zoom = some 1 ∧
    (getCurrentPage (viewportOnWheel c7state c7event)).map Page.offsetY = some 10 ∧
    max (1/10 : ℚ) (min 5 (1 + -c7event.deltaY * (1/100))) = 11/10 ∧
    (1 : ℚ) ≠ 11/10 := by
  refine ⟨rfl, ?_, ?_, by norm_num [c7event], by norm_num⟩
  · simp only [viewportOnWheel, c7state, c7event, mkState, mkPage,
      getCurrentPage, updateCurrentPage, List.find?, List.map]
    norm_num [getCurrentPage, List.find?]
  · simp only [viewportOnWheel, c7state, c7event, mkState, mkPage,
      getCurrentPage, updateCurrentPage, List.find?, List.map]
    norm_num [getCurrentPage, List.find?]

/-- C7, amended: on a wheel event with ctrl or cmd held that is not
    classified as a trackpad pan (that is, ctrl is held or `|deltaY| ≥ 50`),
    the new zoom is `clamp(zoom + (-deltaY * 0.01), 0.1, 5)`, the offset is
    recomputed as `newOffset = pointer - (pointer - offset) * newZoom/zoom`,
    and the canvas-space point under the stored mouse position is unchanged
    (`screenToCanvas` invariant across the zoom). -/
theorem c7_zoom_anchoring (s : AppState) (e : WEvent) (page : Page)
    (hp : getCurrentPage s = some page)
    (hkey : e.ctrlKey = true ∨ e.metaKey = true)
    (htrack : ¬(|e.deltaY| < 50 ∧ e.ctrlKey = false))
    (hzoom : 0 < page.zoom) :
    ∃ page', getCurrentPage (viewportOnWheel s e) = some page' ∧
      page'.zoom = max (1/10) (min 5 (page.zoom + -e.deltaY * (1/100))) ∧
      page'.offsetX = (page.mouseX - e.rectLeft) -
        ((page.mouseX - e.rectLeft) - page.offsetX) * (page'.zoom / page.zoom) ∧
      page'.offsetY = (page.mouseY - e.rectTop) -
        ((page.mouseY - e.rectTop) - page.offsetY) * (page'.zoom / page.zoom) ∧
      screenToCanvas page'.offsetX page'.zoom (page.mouseX - e.rectLeft) =
        screenToCanvas page.offsetX page.zoom (page.mouseX - e.rectLeft) ∧
      screenToCanvas page'.offsetY page'.zoom (page.mouseY - e.rectTop) =
        screenToCanvas page.offsetY page.zoom (page.mouseY - e.rectTop) := by
  have hT : (decide (|e.deltaY| < 50) && !e.ctrlKey) = false := by
    by_cases hc : e.ctrlKey
    · simp [hc]
    · have hd : ¬(|e.deltaY| < 50) := fun h => htrack ⟨h, by simpa using hc⟩
      simp [hd]
  have hor : (e.ctrlKey || e.metaKey) = true := by
    rcases hkey with h | h <;> simp [h]
  have hz : page.zoom ≠ 0 := ne_of_gt hzoom
  have hnzpos : (0:ℚ) < max (1/10) (min 5 (page.zoom + -e.deltaY * (1/100))) :=
    lt_of_lt_of_le (by norm_num) (le_max_left _ _)
  have hnz : max (1/10 : ℚ) (min 5 (page.zoom + -e.deltaY * (1/100))) ≠ 0 :=
    ne_of_gt hnzpos
  simp only [viewportOnWheel, hp, hT, Bool.false_eq_true, if_false, hor, if_true]
  rw [getCurrentPage_setZoomOffsets, hp]
  refine ⟨_, rfl, rfl, rfl, rfl, ?_, ?_⟩
  · unfold screenToCanvas
    field_simp
    ring
  · unfold screenToCanvas
    field_simp
    ring

/- ------------------------------------------------------------------ -/
/- C10: page isolation.                                                -/
/- ------------------------------------------------------------------ -/

/-- The frame property: the operation keeps `currentPageId` and leaves every
    page whose id differs from it completely unchanged (pairwise along the
    page list, so number and order of pages are also kept). -/
def FrameOK (s s' : AppState) : Prop :=
  s'.currentPageId = s.currentPageId ∧
  List.Forall₂ (fun p p' => p.id ≠ s.currentPageId → p' = p) s.pages s'.pages

theorem forall₂_comp {α : Type _} {R S T : α → α → Prop}
    (h : ∀ a b c, R a b → S b c → T a c) :
    ∀ {l1 l2 l3 : List α}, List.Forall₂ R l1 l2 → List.Forall₂ S l2 l3 →
      List.Forall₂ T l1 l3 := by
  intro l1 l2 l3 h12
  induction h12 generalizing l3 with
  | nil => intro h23; cases h23; exact .nil
  | cons hr _ ih =>
      intro h23
      cases h23 with
      | cons hs hrest2 => exact .cons (h _ _ _ hr hs) (ih hrest2)

theorem frameOK_refl (s : AppState) : FrameOK s s :=
  ⟨rfl, (List.forall₂_same).mpr (fun _ _ _ => rfl)⟩

theorem frameOK_update (s : AppState) (upd : Page → Page) :
    FrameOK s (updateCurrentPage s upd) := by
  refine ⟨rfl, ?_⟩
  show List.Forall₂ _ s.pages (s.pages.map _)
  rw [List.forall₂_map_right_iff, List.forall₂_same]
  intro p _ hne
  simp [hne]

theorem frameOK_trans {s t u : AppState} (h1 : FrameOK s t) (h2 : FrameOK t u) :
    FrameOK s u := by
  obtain ⟨hc1, hf1⟩ := h1
  obtain ⟨hc2, hf2⟩ := h2
  refine ⟨hc2.trans hc1, ?_⟩
  refine forall₂_comp ?_ hf1 hf2
  intro a b c hab hbc hane
  have hb : b = a := hab hane
  have : b.id ≠ t.currentPageId := by
    rw [hb, hc1]
    exact hane
  rw [hbc this, hb]

/-- C10: page isolation.  `updateCurrentPage` and every canvas-engine
    operation built on it — selection changes, drag translation, resize
    updates, viewport pan and zoom, marquee updates — modify only pages
    whose id equals `currentPageId`; every other page is unchanged. -/
theorem c10_page_isolation :
    (∀ (s : AppState) (upd : Page → Page), FrameOK s (updateCurrentPage s upd)) ∧
    (∀ (s : AppState) (bid : Nat), FrameOK s (selectBlock s bid)) ∧
    (∀ s : AppState, FrameOK s (deselectAllBlocks s)) ∧
    (∀ (s : AppState) (bid : Nat), FrameOK s (toggleBlockSelection s bid)) ∧
    (∀ (s : AppState) (dx dy : ℚ), FrameOK s (handleBlockDrag s dx dy)) ∧
    (∀ (s : AppState) (dx dy : ℚ), FrameOK s (handleViewportDrag s dx dy)) ∧
    (∀ (s : AppState) (e : PEvent), FrameOK s (handleResizePointerMove s e)) ∧
    (∀ (s : AppState) (e : PEvent), FrameOK s (handleSelectionBoxMove s e)) ∧
    (∀ (s : AppState) (e : WEvent), FrameOK s (viewportOnWheel s e)) ∧
    (∀ (s : AppState) (box : SelectionBox),
        FrameOK s (handleSelectionBoxComplete s box)) ∧
    (∀ (s : AppState) (e : PEvent), FrameOK s (viewportOnPointerMove s e)) := by
  have hresize : ∀ (s : AppState) (e : PEvent), FrameOK s (handleResizePointerMove s e) := by
    intro s e
    unfold handleResizePointerMove
    split
    · exact frameOK_refl s
    · split
      · exact frameOK_refl s
      · dsimp only
        split
        · split
          · exact frameOK_refl s
          · exact frameOK_update s _
        · split
          · exact frameOK_refl s
          · exact frameOK_update s _
  have hboxmove : ∀ (s : AppState) (e : PEvent), FrameOK s (handleSelectionBoxMove s e) := by
    intro s e
    unfold handleSelectionBoxMove
    split
    · exact frameOK_refl s
    · split
      · exact frameOK_refl s
      · exact frameOK_update s _
  have hdrag : ∀ (s : AppState) (dx dy : ℚ), FrameOK s (handleBlockDrag s dx dy) :=
    fun s dx dy => frameOK_update s _
  have hvdrag : ∀ (s : AppState) (dx dy : ℚ), FrameOK s (handleViewportDrag s dx dy) :=
    fun s dx dy => frameOK_update s _
  refine ⟨fun s upd => frameOK_update s upd,
          fun s bid => frameOK_update s _,
          fun s => frameOK_update s _,
          ?_, hdrag, hvdrag, hresize, hboxmove, ?_, fun s box => frameOK_update s _, ?_⟩
  · intro s bid
    unfold toggleBlockSelection
    split
    · unfold removeBlockFromSelection
      split
      · exact frameOK_refl s
      · exact frameOK_update s _
    · unfold addBlockToSelection
      split
      · exact frameOK_refl s
      · split
        · exact frameOK_refl s
        · exact frameOK_update s _
  · intro s e
    unfold viewportOnWheel
    dsimp only
    repeat' split
    all_goals first
      | exact frameOK_refl s
      | exact frameOK_update s _
  · intro s e
    unfold viewportOnPointerMove
    split
    · exact frameOK_refl s
    · dsimp only
      split
      · exact frameOK_trans (frameOK_update s _) (hresize _ e)
      · split
        · exact frameOK_trans (frameOK_update s _) (hdrag _ _ _)
        · split
          · exact frameOK_trans (frameOK_update s _) (hvdrag _ _ _)
          · split
            · exact frameOK_trans (frameOK_update s _) (hboxmove _ e)
            · exact frameOK_update s _

/- ------------------------------------------------------------------ -/
/- C9: pointer-up memento commit.                                      -/
/- ------------------------------------------------------------------ -/

theorem getSelectedBlockIds_of_page {s : AppState} {cp : Page}
    (h : getCurrentPage s = some cp) : getSelectedBlockIds s = cp.selectedIds := by
  unfold getSelectedBlockIds
  rw [h]

/-- `dragMovedCheck` is true exactly when the reference block's position
    differs from its stored start position (exact comparison, no epsilon),
    provided the reference block exists and is selected. -/
theorem dragMovedCheck_iff (blocks : List Block) (selIds : List Nat)
    (ds : DragStart) (db : Block)
    (hfind : blocks.find? (fun b => b.id == ds.id) = some db)
    (hmem : ds.id ∈ selIds) :
    (dragMovedCheck blocks selIds ds (some db) = true) ↔
      (db.x ≠ ds.startX ∨ db.y ≠ ds.startY) := by
  unfold dragMovedCheck
  rw [List.any_eq_true]
  constructor
  · rintro ⟨bid, hbid, hf⟩
    by_cases hb : bid = ds.id
    · subst hb
      rw [hfind] at hf
      simp only [beq_self_eq_true, if_true, Bool.not_eq_true',
        Bool.and_eq_false_iff, decide_eq_false_iff_not] at hf
      tauto
    · cases hfb : blocks.find? (fun b => b.id == bid) with
      | none => rw [hfb] at hf; simp at hf
      | some b =>
          rw [hfb] at hf
          have hbeq : (bid == ds.id) = false := by simpa using hb
          simp only [hbeq, Bool.false_eq_true, if_false, Bool.or_eq_true,
            decide_eq_true_eq] at hf
          have e1 : b.x - (b.x + (ds.startX - db.x)) = db.x - ds.startX := by ring
          have e2 : b.y - (b.y + (ds.startY - db.y)) = db.y - ds.startY := by ring
          rw [e1, e2] at hf
          rcases hf with h | h
          · left
            intro heq
            rw [heq] at h
            simp only [sub_self, abs_zero] at h
            norm_num at h
          · right
            intro heq
            rw [heq] at h
            simp only [sub_self, abs_zero] at h
            norm_num at h
  · intro hmoved
    refine ⟨ds.id, hmem, ?_⟩
    rw [hfind]
    simp only [beq_self_eq_true, if_true, Bool.not_eq_true',
      Bool.and_eq_false_iff, decide_eq_false_iff_not]
    tauto

theorem getCurrentPage_clearGesture (s : AppState) :
    getCurrentPage (updateCurrentPage s clearGestureUpd) =
      Option.map clearGestureUpd (getCurrentPage s) :=
  getCurrentPage_updateCurrentPage s _ (fun _ => rfl)

theorem getCurrentPage_finishSelection (s : AppState) (ids : List Nat) :
    getCurrentPage (updateCurrentPage s (fun p =>
        { p with selectedIds := ids, previewSelectedIds := [] })) =
      Option.map (fun p => { p with selectedIds := ids, previewSelectedIds := [] })
        (getCurrentPage s) :=
  getCurrentPage_updateCurrentPage s _ (fun _ => rfl)

theorem getCurrentPage_clearBox (s : AppState) :
    getCurrentPage (updateCurrentPage s clearBoxUpd) =
      Option.map clearBoxUpd (getCurrentPage s) :=
  getCurrentPage_updateCurrentPage s _ (fun _ => rfl)

theorem handleDragCompletion_pages (s ns : AppState) :
    (handleDragCompletion s ns).pages = ns.pages ∧
    (handleDragCompletion s ns).currentPageId = ns.currentPageId := by
  unfold handleDragCompletion
  dsimp only
  repeat' split
  all_goals exact ⟨rfl, rfl⟩

/-- The memento behaviour of `handleDragCompletion` under the drag
    hypotheses: a memento of the pre-gesture geometry is pushed iff the
    reference block's position changed at all. -/
theorem handleDragCompletion_manager (s ns : AppState) (cp : Page)
    (ds : DragStart) (db : Block)
    (h1 : getCurrentPage s = some cp)
    (h2 : cp.dragStart = some ds)
    (h3 : (getCurrentBlocks s).find? (fun b => b.id == ds.id) = some db)
    (h4 : ds.id ∈ cp.selectedIds) :
    ((db.x ≠ ds.startX ∨ db.y ≠ ds.startY) →
      handleDragCompletion s ns =
        saveMementoAndReturn
          (preDragState s cp.selectedIds (db.x - ds.startX) (db.y - ds.startY)) ns) ∧
    (db.x = ds.startX ∧ db.y = ds.startY → handleDragCompletion s ns = ns) := by
  have hsel := getSelectedBlockIds_of_page h1
  unfold handleDragCompletion
  rw [h1]
  simp only [h2, hsel, h3]
  constructor
  · intro hmoved
    rw [if_pos ((dragMovedCheck_iff _ _ _ _ h3 h4).mpr hmoved)]
  · rintro ⟨hx, hy⟩
    rw [if_neg ?_]
    intro hc
    rcases (dragMovedCheck_iff _ _ _ _ h3 h4).mp hc with h | h
    · exact h hx
    · exact h hy

/-- `resizeChangedCheck` is true exactly when some snapshotted block's
    current geometry deviates from its original by more than the 0.1px
    epsilon in x, y, width or height. -/
theorem resizeChangedCheck_iff (blocks : List Block)
    (obs : List OriginalBlock) :
    resizeChangedCheck blocks obs = true ↔
      ∃ ob ∈ obs, ∃ cb, blocks.find? (fun b => b.id == ob.id) = some cb ∧
        (|cb.x - ob.x| > 1/10 ∨ |cb.y - ob.y| > 1/10 ∨
         |cb.width - ob.width| > 1/10 ∨ |cb.height - ob.height| > 1/10) := by
  unfold resizeChangedCheck
  rw [List.any_eq_true]
  constructor
  · rintro ⟨ob, hm, hf⟩
    refine ⟨ob, hm, ?_⟩
    cases hfind : blocks.find? (fun b => b.id == ob.id) with
    | none =>
        rw [hfind] at hf
        exact absurd hf (by simp)
    | some cb =>
        rw [hfind] at hf
        simp only [Bool.or_eq_true, decide_eq_true_eq] at hf
        exact ⟨cb, rfl, by tauto⟩
  · rintro ⟨ob, hm, cb, hfind, hcond⟩
    refine ⟨ob, hm, ?_⟩
    rw [hfind]
    simp only [Bool.or_eq_true, decide_eq_true_eq]
    tauto

/-- The memento behaviour of `handleResizeCompletion` for a single-block
    resize: a memento of the pre-resize geometry is pushed iff the block's
    geometry differs at all from the recorded start values. -/
theorem handleResizeCompletion_manager_block (s ns : AppState) (cp : Page)
    (rz : Resizing) (bid : Nat) (rb : Block)
    (h1 : getCurrentPage s = some cp)
    (h2 : cp.resizing = some rz)
    (h3 : rz.id = ResizeTarget.block bid)
    (h4 : (getCurrentBlocks s).find? (fun b => b.id == bid) = some rb) :
    ((rb.width ≠ rz.startWidth ∨ rb.height ≠ rz.startHeight ∨
      rb.x ≠ rz.startX ∨ rb.y ≠ rz.startY) →
      handleResizeCompletion s ns =
        saveMementoAndReturn (preResizeSingleState s bid rz) ns) ∧
    (rb.width = rz.startWidth ∧ rb.height = rz.startHeight ∧
     rb.x = rz.startX ∧ rb.y = rz.startY →
      handleResizeCompletion s ns = ns) := by
  unfold handleResizeCompletion
  rw [h1]
  simp only [h2, h3, h4]
  constructor
  · intro hchanged
    rw [if_pos hchanged]
  · rintro ⟨hw, hh, hx, hy⟩
    have hne : ¬(rb.width ≠ rz.startWidth ∨ rb.height ≠ rz.startHeight ∨
        rb.x ≠ rz.startX ∨ rb.y ≠ rz.startY) := by
      push_neg
      exact ⟨hw, hh, hx, hy⟩
    rw [if_neg hne]

/-- The memento behaviour of `handleResizeCompletion` for a group resize:
    a memento of the snapshotted pre-resize geometry is pushed iff some
    block deviates from its snapshot by more than the 0.1px epsilon. -/
theorem handleResizeCompletion_manager_group (s ns : AppState) (cp : Page)
    (rz : Resizing) (obs : List OriginalBlock)
    (h1 : getCurrentPage s = some cp)
    (h2 : cp.resizing = some rz)
    (h3 : rz.id = ResizeTarget.selectionBoundingBox)
    (h4 : rz.originalBlocks = some obs) :
    ((∃ ob ∈ obs, ∃ cb,
        (getCurrentBlocks s).find? (fun b => b.id == ob.id) = some cb ∧
        (|cb.x - ob.x| > 1/10 ∨ |cb.y - ob.y| > 1/10 ∨
         |cb.width - ob.width| > 1/10 ∨ |cb.height - ob.height| > 1/10)) →
      handleResizeCompletion s ns =
        saveMementoAndReturn (preResizeGroupState s obs) ns) ∧
    ((∀ ob ∈ obs, ∀ cb,
        (getCurrentBlocks s).find? (fun b => b.id == ob.id) = some cb →
        |cb.x - ob.x| ≤ 1/10 ∧ |cb.y - ob.y| ≤ 1/10 ∧
        |cb.width - ob.width| ≤ 1/10 ∧ |cb.height - ob.height| ≤ 1/10) →
      handleResizeCompletion s ns = ns) := by
  unfold handleResizeCompletion
  rw [h1]
  simp only [h2, h3, h4]
  constructor
  · intro hchanged
    rw [if_pos ((resizeChangedCheck_iff (getCurrentBlocks s) obs).mpr hchanged)]
  · intro hsmall
    have hne : ¬(∃ ob ∈ obs, ∃ cb,
        (getCurrentBlocks s).find? (fun b => b.id == ob.id) = some cb ∧
        (|cb.x - ob.x| > 1/10 ∨ |cb.y - ob.y| > 1/10 ∨
         |cb.width - ob.width| > 1/10 ∨ |cb.height - ob.height| > 1/10)) := by
      rintro ⟨ob, hm, cb, hfind, hcond⟩
      obtain ⟨hx, hy, hw, hh⟩ := hsmall ob hm cb hfind
      rcases hcond with h | h | h | h
      · exact absurd hx (not_le.mpr h)
      · exact absurd hy (not_le.mpr h)
      · exact absurd hw (not_le.mpr h)
      · exact absurd hh (not_le.mpr h)
    rw [if_neg ((not_congr (resizeChangedCheck_iff (getCurrentBlocks s) obs)).mpr hne)]

theorem handleResizeCompletion_pages (s ns : AppState) :
    (handleResizeCompletion s ns).pages = ns.pages ∧
    (handleResizeCompletion s ns).currentPageId = ns.currentPageId := by
  unfold handleResizeCompletion
  dsimp only
  repeat' split
  all_goals exact ⟨rfl, rfl⟩

theorem viewportOnPointerUp_eq_none (s : AppState) (h : getCurrentPage s = none) :
    viewportOnPointerUp s = s := by
  unfold viewportOnPointerUp
  rw [h]

theorem viewportOnPointerUp_pages_noBox (s : AppState) (cp : Page)
    (h : getCurrentPage s = some cp) (hb : cp.selectionBox = none) :
    (viewportOnPointerUp s).pages = (updateCurrentPage s clearGestureUpd).pages ∧
    (viewportOnPointerUp s).currentPageId =
      (updateCurrentPage s clearGestureUpd).currentPageId := by
  unfold viewportOnPointerUp
  rw [h]
  simp only [hb]
  split
  · exact handleDragCompletion_pages _ _
  · split
    · exact handleResizeCompletion_pages _ _
    · exact ⟨rfl, rfl⟩

theorem viewportOnPointerUp_pages_box (s : AppState) (cp : Page) (box : SelectionBox)
    (h : getCurrentPage s = some cp) (hb : cp.selectionBox = some box) :
    (viewportOnPointerUp s).pages =
      (updateCurrentPage
        (handleSelectionBoxComplete (updateCurrentPage s clearGestureUpd) box)
        clearBoxUpd).pages ∧
    (viewportOnPointerUp s).currentPageId =
      (updateCurrentPage
        (handleSelectionBoxComplete (updateCurrentPage s clearGestureUpd) box)
        clearBoxUpd).currentPageId := by
  unfold viewportOnPointerUp
  rw [h]
  simp only [hb]
  split
  · exact handleDragCompletion_pages _ _
  · split
    · exact handleResizeCompletion_pages _ _
    · exact ⟨rfl, rfl⟩

/-- After pointer-up on a page, the gesture records of the current page are
    cleared and the current page id is preserved. -/
theorem viewportOnPointerUp_clears (s : AppState) (cp : Page)
    (h1 : getCurrentPage s = some cp) :
    (viewportOnPointerUp s).currentPageId = s.currentPageId ∧
    ∃ p', getCurrentPage (viewportOnPointerUp s) = some p' ∧
        p'.dragStart = none ∧ p'.resizing = none ∧ p'.selectionBox = none := by
  cases hbox : cp.selectionBox with
  | none =>
      obtain ⟨hp, hc⟩ := viewportOnPointerUp_pages_noBox s cp h1 hbox
      have hgp : getCurrentPage (viewportOnPointerUp s) =
          getCurrentPage (updateCurrentPage s clearGestureUpd) := by
        unfold getCurrentPage
        rw [hp, hc]
      constructor
      · rw [hc]
        exact rfl
      · rw [hgp, getCurrentPage_clearGesture, h1]
        exact ⟨_, rfl, rfl, rfl, hbox⟩
  | some box =>
      obtain ⟨hp, hc⟩ := viewportOnPointerUp_pages_box s cp box h1 hbox
      have hgp : getCurrentPage (viewportOnPointerUp s) =
          getCurrentPage (updateCurrentPage
            (handleSelectionBoxComplete (updateCurrentPage s clearGestureUpd) box)
            clearBoxUpd) := by
        unfold getCurrentPage
        rw [hp, hc]
      constructor
      · rw [hc]
        exact rfl
      · rw [hgp, getCurrentPage_clearBox]
        unfold handleSelectionBoxComplete
        rw [getCurrentPage_finishSelection, getCurrentPage_clearGesture, h1]
        exact ⟨_, rfl, rfl, rfl, rfl⟩

/-- C9, amended: on pointer-up the gesture records of the current page are
    cleared and a memento capturing the pre-gesture geometry is pushed
    (clearing the redo stack) under a per-path condition.  After a drag, the
    push happens iff the dragged reference block's position differs at all
    from its recorded start — an exact comparison, not the 0.1px epsilon
    (the epsilon in `handleDragCompletion`'s inline `hasAnyBlockMoved` check
    applies only to the other selected blocks).  After a single-block
    resize, the push happens iff the block's x, y, width or height differs
    at all from the recorded start values — again an exact comparison.
    After a group resize, the push happens iff some snapshotted block's
    geometry deviates from its original by more than the genuine 0.1px
    epsilon.  When nothing changed the memento manager is untouched, so a
    pure click pushes nothing. -/
theorem c9_pointer_up_gesture_commit :
    (∀ (s : AppState) (cp : Page) (ds : DragStart) (db : Block),
      getCurrentPage s = some cp → cp.dragStart = some ds →
      (getCurrentBlocks s).find? (fun b => b.id == ds.id) = some db →
      ds.id ∈ cp.selectedIds →
      ((viewportOnPointerUp s).currentPageId = s.currentPageId ∧
       ∃ p', getCurrentPage (viewportOnPointerUp s) = some p' ∧
         p'.dragStart = none ∧ p'.resizing = none ∧ p'.selectionBox = none) ∧
      ((db.x ≠ ds.startX ∨ db.y ≠ ds.startY) →
        (viewportOnPointerUp s).mementoManager.undoStack =
          pushBounded s.mementoManager.maxHistorySize
            (createMemento (preDragState s cp.selectedIds
              (db.x - ds.startX) (db.y - ds.startY)))
            s.mementoManager.undoStack ∧
        (viewportOnPointerUp s).mementoManager.redoStack = []) ∧
      (db.x = ds.startX ∧ db.y = ds.startY →
        (viewportOnPointerUp s).mementoManager = s.mementoManager)) ∧
    (∀ (s : AppState) (cp : Page) (rz : Resizing) (bid : Nat) (rb : Block),
      getCurrentPage s = some cp → cp.dragStart = none →
      cp.resizing = some rz → rz.id = ResizeTarget.block bid →
      (getCurrentBlocks s).find? (fun b => b.id == bid) = some rb →
      ((viewportOnPointerUp s).currentPageId = s.currentPageId ∧
       ∃ p', getCurrentPage (viewportOnPointerUp s) = some p' ∧
         p'.dragStart = none ∧ p'.resizing = none ∧ p'.selectionBox = none) ∧
      ((rb.width ≠ rz.startWidth ∨ rb.height ≠ rz.startHeight ∨
        rb.x ≠ rz.startX ∨ rb.y ≠ rz.startY) →
        (viewportOnPointerUp s).mementoManager.undoStack =
          pushBounded s.mementoManager.maxHistorySize
            (createMemento (preResizeSingleState s bid rz))
            s.mementoManager.undoStack ∧
        (viewportOnPointerUp s).mementoManager.redoStack = []) ∧
      (rb.width = rz.startWidth ∧ rb.height = rz.startHeight ∧
       rb.x = rz.startX ∧ rb.y = rz.startY →
        (viewportOnPointerUp s).mementoManager = s.mementoManager)) ∧
    (∀ (s : AppState) (cp : Page) (rz : Resizing) (obs : List OriginalBlock),
      getCurrentPage s = some cp → cp.dragStart = none →
      cp.resizing = some rz → rz.id = ResizeTarget.selectionBoundingBox →
      rz.originalBlocks = some obs →
      ((viewportOnPointerUp s).currentPageId = s.currentPageId ∧
       ∃ p', getCurrentPage (viewportOnPointerUp s) = some p' ∧
         p'.dragStart = none ∧ p'.resizing = none ∧ p'.selectionBox = none) ∧
      ((∃ ob ∈ obs, ∃ cb,
          (getCurrentBlocks s).find? (fun b => b.id == ob.id) = some cb ∧
          (|cb.x - ob.x| > 1/10 ∨ |cb.y - ob.y| > 1/10 ∨
           |cb.width - ob.width| > 1/10 ∨ |cb.height - ob.height| > 1/10)) →
        (viewportOnPointerUp s).mementoManager.undoStack =
          pushBounded s.mementoManager.maxHistorySize
            (createMemento (preResizeGroupState s obs))
            s.mementoManager.undoStack ∧
        (viewportOnPointerUp s).mementoManager.redoStack = []) ∧
      ((∀ ob ∈ obs, ∀ cb,
          (getCurrentBlocks s).find? (fun b => b.id == ob.id) = some cb →
          |cb.x - ob.x| ≤ 1/10 ∧ |cb.y - ob.y| ≤ 1/10 ∧
          |cb.width - ob.width| ≤ 1/10 ∧ |cb.height - ob.height| ≤ 1/10) →
        (viewportOnPointerUp s).mementoManager = s.mementoManager)) := by
  refine ⟨?_, ?_, ?_⟩
  · intro s cp ds db h1 h2 h3 h4
    obtain ⟨hpid, hcleared⟩ := viewportOnPointerUp_clears s cp h1
    have hform : ∃ ns : AppState,
        viewportOnPointerUp s = handleDragCompletion s ns ∧
        ns.mementoManager = s.mementoManager := by
      have hds : cp.dragStart.isSome = true := by rw [h2]; rfl
      unfold viewportOnPointerUp
      rw [h1]
      simp only [hds, if_true]
      cases cp.selectionBox with
      | none => exact ⟨_, rfl, rfl⟩
      | some box => exact ⟨_, rfl, rfl⟩
    obtain ⟨ns, heq, hm⟩ := hform
    obtain ⟨hM, hN⟩ := handleDragCompletion_manager s ns cp ds db h1 h2 h3 h4
    refine ⟨⟨hpid, hcleared⟩, ?_, ?_⟩
    · intro hmoved
      rw [heq, hM hmoved]
      exact ⟨rfl, rfl⟩
    · intro hsame
      rw [heq, hN hsame]
      exact hm
  · intro s cp rz bid rb h1 hds h2 h3 h4
    obtain ⟨hpid, hcleared⟩ := viewportOnPointerUp_clears s cp h1
    have hform : ∃ ns : AppState,
        viewportOnPointerUp s = handleResizeCompletion s ns ∧
        ns.mementoManager = s.mementoManager := by
      have hdsF : cp.dragStart.isSome = false := by rw [hds]; rfl
      have hrzT : cp.resizing.isSome = true := by rw [h2]; rfl
      unfold viewportOnPointerUp
      rw [h1]
      simp only [hdsF, hrzT, Bool.false_eq_true, if_false, if_true]
      cases cp.selectionBox with
      | none => exact ⟨_, rfl, rfl⟩
      | some box => exact ⟨_, rfl, rfl⟩
    obtain ⟨ns, heq, hm⟩ := hform
    obtain ⟨hM, hN⟩ := handleResizeCompletion_manager_block s ns cp rz bid rb h1 h2 h3 h4
    refine ⟨⟨hpid, hcleared⟩, ?_, ?_⟩
    · intro hchanged
      rw [heq, hM hchanged]
      exact ⟨rfl, rfl⟩
    · intro hsame
      rw [heq, hN hsame]
      exact hm
  · intro s cp rz obs h1 hds h2 h3 h4
    obtain ⟨hpid, hcleared⟩ := viewportOnPointerUp_clears s cp h1
    have hform : ∃ ns : AppState,
        viewportOnPointerUp s = handleResizeCompletion s ns ∧
        ns.mementoManager = s.mementoManager := by
      have hdsF : cp.dragStart.isSome = false := by rw [hds]; rfl
      have hrzT : cp.resizing.isSome = true := by rw [h2]; rfl
      unfold viewportOnPointerUp
      rw [h1]
      simp only [hdsF, hrzT, Bool.false_eq_true, if_false, if_true]
      cases cp.selectionBox with
      | none => exact ⟨_, rfl, rfl⟩
      | some box => exact ⟨_, rfl, rfl⟩
    obtain ⟨ns, heq, hm⟩ := hform
    obtain ⟨hM, hN⟩ := handleResizeCompletion_manager_group s ns cp rz obs h1 h2 h3 h4
    refine ⟨⟨hpid, hcleared⟩, ?_, ?_⟩
    · intro hchanged
      rw [heq, hM hchanged]
      exact ⟨rfl, rfl⟩
    · intro hsame
      rw [heq, hN hsame]
      exact hm

/-- The drag record of the sub-epsilon drag example. -/
def c9ds : DragStart := { id := 1, startX := 0, startY := 0 }

/-- The reference block after a 1/20 px drag. -/
def c9db : Block := mkBlock 1 (1/20) 0 100 100

/-- The page of a pure sub-epsilon drag: the selected reference block has
    moved by 1/20 px, below the claimed 0.1px commit threshold. -/
def c9page : Page :=
  { mkPage "p" [c9db] with
      selectedIds := [1]
      dragStart := some c9ds }

/-- The state of the sub-epsilon drag example. -/
def c9state : AppState := mkState [c9page] "p"

/-- C9, counterexample: the claim says a memento is pushed iff the net
    change exceeds ~0.1px; but after a drag whose net delta is 1/20 px
    (≤ 0.1) pointer-up still pushes a memento, because the reference block
    is compared exactly, not against the epsilon. -/
theorem c9_counterexample :
    (viewportOnPointerUp c9state).mementoManager.undoStack.length = 1 ∧
    c9state.mementoManager.undoStack.length = 0 ∧
    |(1/20 : ℚ) - 0| ≤ 1/10 ∧ |(0 : ℚ) - 0| ≤ 1/10 := by
  refine ⟨?_, rfl, by rw [abs_le]; constructor <;> norm_num,
    by rw [abs_le]; constructor <;> norm_num⟩
  simp only [viewportOnPointerUp, c9state, c9page, c9ds, c9db, mkState, mkPage,
    mkBlock, getCurrentPage, getCurrentBlocks, getSelectedBlockIds,
    updateCurrentPage, handleDragCompletion, dragMovedCheck, preDragState,
    saveMementoAndReturn, pushBounded, createMementoManager, clearGestureUpd,
    clearBoxUpd, List.find?, List.map, List.any]
  norm_num

/- ------------------------------------------------------------------ -/
/- C3: gesture mutual exclusion.                                       -/
/- ------------------------------------------------------------------ -/

/-- A pointer event as it reaches the canvas engine: a pointer-down on the
    empty canvas, on a block (which falls through to the canvas handler when
    the block handler does not stop propagation), on a resize handle of a
    single block or of the multi-select bounding box, a pointer-move, or a
    pointer-up. -/
inductive CanvasEvent where
  | canvasDown (e : PEvent)
  | blockDown (blockId : Nat) (e : PEvent)
  | handleDownBlock (blockId : Nat) (handle : Handle)
  | handleDownMulti (handle : Handle)
  | pointerMove (e : PEvent)
  | pointerUp

/-- Dispatch one event to the handlers of the source. -/
def step (s : AppState) : CanvasEvent → AppState
  | .canvasDown e => viewportOnPointerDown s e
  | .blockDown blockId e => blockOnPointerDown s blockId e
  | .handleDownBlock blockId handle => resizeHandleBlockPointerDown s blockId handle
  | .handleDownMulti handle => resizeHandleMultiPointerDown s handle
  | .pointerMove e => viewportOnPointerMove s e
  | .pointerUp => viewportOnPointerUp s

/-- Run a list of events left to right. -/
def runEvents (s : AppState) (evs : List CanvasEvent) : AppState :=
  evs.foldl step s

/-- Classification of a page's three gesture records: a class is assigned
    exactly when at most one record is non-null. -/
inductive GClass where
  | idle | drag | resize | marquee
deriving DecidableEq

/-- The class of a page, `none` when two or more records are non-null. -/
def classOf (p : Page) : Option GClass :=
  match p.resizing, p.dragStart, p.selectionBox with
  | none, none, none => some .idle
  | some _, none, none => some .resize
  | none, some _, none => some .drag
  | none, none, some _ => some .marquee
  | _, _, _ => none

/-- At most one of the three gesture records is non-null. -/
def AtMostOneGesture (p : Page) : Prop :=
  (if p.resizing.isSome then 1 else 0) + (if p.dragStart.isSome then 1 else 0) +
      (if p.selectionBox.isSome then 1 else 0) ≤ 1

theorem classOf_atMostOne {p : Page} {g : GClass} (h : classOf p = some g) :
    AtMostOneGesture p := by
  unfold classOf at h
  unfold AtMostOneGesture
  cases hr : p.resizing <;> cases hd : p.dragStart <;> cases hb : p.selectionBox <;>
    rw [hr, hd, hb] at h <;> simp_all

theorem classOf_idle_iff (p : Page) :
    classOf p = some GClass.idle ↔
      p.resizing = none ∧ p.dragStart = none ∧ p.selectionBox = none := by
  unfold classOf
  cases hr : p.resizing <;> cases hd : p.dragStart <;> cases hb : p.selectionBox <;>
    simp

theorem classOf_marquee_iff (p : Page) :
    classOf p = some GClass.marquee ↔
      p.resizing = none ∧ p.dragStart = none ∧ p.selectionBox.isSome = true := by
  unfold classOf
  cases hr : p.resizing <;> cases hd : p.dragStart <;> cases hb : p.selectionBox <;>
    simp

theorem classOf_not_marquee {p : Page} {g : GClass} (hg : classOf p = some g)
    (hb : p.selectionBox = none) : g ≠ GClass.marquee := by
  intro hmar
  subst hmar
  obtain ⟨-, -, hsome⟩ := (classOf_marquee_iff p).mp hg
  rw [hb] at hsome
  cases hsome

/-- All matching pages have class `g`, all other pages are idle. -/
def Inv3With (cur : String) (g : GClass) (pages : List Page) : Prop :=
  ∀ p ∈ pages, classOf p = some (if p.id = cur then g else GClass.idle)

theorem inv3_updateCurrentPage (s : AppState) (g g' : GClass) (upd : Page → Page)
    (hid : ∀ p, (upd p).id = p.id)
    (hcls : ∀ p, classOf p = some g → classOf (upd p) = some g')
    (h : Inv3With s.currentPageId g s.pages) :
    Inv3With s.currentPageId g' (updateCurrentPage s upd).pages := by
  intro q hq
  obtain ⟨p, hp, rfl⟩ := List.mem_map.mp hq
  by_cases hcur : p.id = s.currentPageId
  · have hbeq : (p.id == s.currentPageId) = true := by simpa using hcur
    rw [if_pos hbeq]
    have hcp := h p hp
    rw [if_pos hcur] at hcp
    have := hcls p hcp
    rw [this, hid p, hcur, if_pos rfl]
  · have hbeq : (p.id == s.currentPageId) = false := by simpa using hcur
    rw [if_neg (by simp [hbeq])]
    have hcp := h p hp
    rw [if_neg hcur] at hcp
    rw [hcp, if_neg hcur]

/-- An update that does not touch the three gesture records keeps classes. -/
theorem inv3_recordless (s : AppState) (g : GClass) (upd : Page → Page)
    (hid : ∀ p, (upd p).id = p.id)
    (hr : ∀ p, (upd p).resizing = p.resizing)
    (hd : ∀ p, (upd p).dragStart = p.dragStart)
    (hb : ∀ p, (upd p).selectionBox = p.selectionBox)
    (h : Inv3With s.currentPageId g s.pages) :
    Inv3With s.currentPageId g (updateCurrentPage s upd).pages := by
  refine inv3_updateCurrentPage s g g upd hid (fun p hp => ?_) h
  unfold classOf at hp ⊢
  rw [hr, hd, hb]
  exact hp

theorem step_currentPageId (s : AppState) (ev : CanvasEvent) :
    (step s ev).currentPageId = s.currentPageId := by
  cases ev with
  | canvasDown e =>
      show (viewportOnPointerDown s e).currentPageId = _
      unfold viewportOnPointerDown handleMiddleMouseDown handleDragStart
        handleSelectionBoxStart deselectAllBlocks
      dsimp only
      repeat' split
      all_goals rfl
  | blockDown blockId e =>
      show (blockOnPointerDown s blockId e).currentPageId = _
      have hv : (viewportOnPointerDown s e).currentPageId = s.currentPageId := by
        unfold viewportOnPointerDown handleMiddleMouseDown handleDragStart
          handleSelectionBoxStart deselectAllBlocks
        dsimp only
        repeat' split
        all_goals rfl
      unfold blockOnPointerDown toggleBlockSelection addBlockToSelection
        removeBlockFromSelection isBlockSelected selectBlock
      dsimp only
      repeat' split
      all_goals first | exact hv | rfl
  | handleDownBlock blockId handle =>
      show (resizeHandleBlockPointerDown s blockId handle).currentPageId = _
      unfold resizeHandleBlockPointerDown selectBlock
      dsimp only
      repeat' split
      all_goals rfl
  | handleDownMulti handle =>
      show (resizeHandleMultiPointerDown s handle).currentPageId = _
      unfold resizeHandleMultiPointerDown
      dsimp only
      repeat' split
      all_goals rfl
  | pointerMove e =>
      show (viewportOnPointerMove s e).currentPageId = _
      unfold viewportOnPointerMove handleResizePointerMove handleBlockDrag
        handleViewportDrag handleSelectionBoxMove
      dsimp only
      repeat' split
      all_goals rfl
  | pointerUp =>
      show (viewportOnPointerUp s).currentPageId = _
      cases hcp : getCurrentPage s with
      | none => rw [viewportOnPointerUp_eq_none s hcp]
      | some cp =>
          cases hbox : cp.selectionBox with
          | none =>
              rw [(viewportOnPointerUp_pages_noBox s cp hcp hbox).2]
              rfl
          | some box =>
              rw [(viewportOnPointerUp_pages_box s cp box hcp hbox).2]
              rfl

theorem classOf_drag_iff (p : Page) :
    classOf p = some GClass.drag ↔
      p.resizing = none ∧ p.dragStart.isSome = true ∧ p.selectionBox = none := by
  unfold classOf
  cases hr : p.resizing <;> cases hd : p.dragStart <;> cases hb : p.selectionBox <;>
    simp

theorem classOf_resize_iff (p : Page) :
    classOf p = some GClass.resize ↔
      p.resizing.isSome = true ∧ p.dragStart = none ∧ p.selectionBox = none := by
  unfold classOf
  cases hr : p.resizing <;> cases hd : p.dragStart <;> cases hb : p.selectionBox <;>
    simp

/-- Invariant preservation through a resize pointer-move (touches only
    `blocks`). -/
theorem inv3_resizeMove (t : AppState) (e : PEvent) (g : GClass)
    (h : Inv3With t.currentPageId g t.pages) :
    Inv3With t.currentPageId g (handleResizePointerMove t e).pages := by
  unfold handleResizePointerMove
  dsimp only
  repeat' split
  all_goals
    first
      | exact h
      | exact inv3_recordless t g _ (fun _ => rfl) (fun _ => rfl) (fun _ => rfl)
          (fun _ => rfl) h

theorem inv3_blockDrag (t : AppState) (dx dy : ℚ) (g : GClass)
    (h : Inv3With t.currentPageId g t.pages) :
    Inv3With t.currentPageId g (handleBlockDrag t dx dy).pages :=
  inv3_recordless t g _ (fun _ => rfl) (fun _ => rfl) (fun _ => rfl) (fun _ => rfl) h

theorem inv3_viewportDrag (t : AppState) (dx dy : ℚ) (g : GClass)
    (h : Inv3With t.currentPageId g t.pages) :
    Inv3With t.currentPageId g (handleViewportDrag t dx dy).pages :=
  inv3_recordless t g _ (fun _ => rfl) (fun _ => rfl) (fun _ => rfl) (fun _ => rfl) h

/-- Invariant preservation through a marquee move: it only fires when the
    current page is in a marquee gesture, and keeps it there. -/
theorem inv3_boxMove (t : AppState) (e : PEvent) (g : GClass)
    (h : Inv3With t.currentPageId g t.pages) :
    Inv3With t.currentPageId g (handleSelectionBoxMove t e).pages := by
  unfold handleSelectionBoxMove
  dsimp only
  split
  · exact h
  · rename_i cp hcp
    split
    · exact h
    · rename_i sb hsb
      have hg : g = GClass.marquee := by
        have hmem := getCurrentPage_mem hcp
        have hcur := getCurrentPage_id hcp
        have hcls := h cp hmem
        rw [if_pos hcur] at hcls
        unfold classOf at hcls
        cases hr : cp.resizing <;> cases hd : cp.dragStart <;>
          rw [hr, hd, hsb] at hcls <;> simp_all
      subst hg
      refine inv3_updateCurrentPage t GClass.marquee GClass.marquee _
        (fun _ => rfl) (fun p hp => ?_) h
      obtain ⟨hr, hd, -⟩ := (classOf_marquee_iff p).mp hp
      simp [classOf, hr, hd]

/-- Invariant preservation through any pointer-move event. -/
theorem inv3_move (s : AppState) (e : PEvent) (g : GClass)
    (h : Inv3With s.currentPageId g s.pages) :
    Inv3With s.currentPageId g (viewportOnPointerMove s e).pages := by
  unfold viewportOnPointerMove
  dsimp only
  split
  · exact h
  · have h1 : Inv3With s.currentPageId g
        (updateCurrentPage s (fun p =>
          { p with mouseX := e.clientX, mouseY := e.clientY })).pages :=
      inv3_recordless s g _ (fun _ => rfl) (fun _ => rfl) (fun _ => rfl)
        (fun _ => rfl) h
    split
    · exact inv3_resizeMove _ e g h1
    · split
      · exact inv3_blockDrag _ _ _ g h1
      · split
        · exact inv3_viewportDrag _ _ _ g h1
        · split
          · exact inv3_boxMove _ e g h1
          · exact h1

/-- Class of a page after the pointer-up field reset. -/
theorem classOf_clearGestureUpd (p : Page) {g : GClass} (h : classOf p = some g) :
    classOf (clearGestureUpd p) =
      some (if g = GClass.marquee then GClass.marquee else GClass.idle) := by
  by_cases hg : g = GClass.marquee
  · subst hg
    obtain ⟨-, -, hsome⟩ := (classOf_marquee_iff p).mp h
    obtain ⟨b, hb⟩ := Option.isSome_iff_exists.mp hsome
    simp [classOf, clearGestureUpd, hb]
  · rw [if_neg hg]
    have hbox : p.selectionBox = none := by
      cases g with
      | idle => exact ((classOf_idle_iff p).mp h).2.2
      | drag => exact ((classOf_drag_iff p).mp h).2.2
      | resize => exact ((classOf_resize_iff p).mp h).2.2
      | marquee => exact absurd rfl hg
    simp [classOf, clearGestureUpd, hbox]

/-- Invariant preservation through pointer-up: all matching pages are idle
    afterwards. -/
theorem inv3_up (s : AppState) (g : GClass)
    (h : Inv3With s.currentPageId g s.pages) :
    Inv3With s.currentPageId GClass.idle (viewportOnPointerUp s).pages := by
  cases hcp : getCurrentPage s with
  | none =>
      rw [viewportOnPointerUp_eq_none s hcp]
      intro p hp
      have hne : p.id ≠ s.currentPageId := getCurrentPage_eq_none hcp p hp
      have hcls := h p hp
      rw [if_neg hne] at hcls
      rw [if_neg hne]
      exact hcls
  | some cp =>
      have h0 : Inv3With s.currentPageId
          (if g = GClass.marquee then GClass.marquee else GClass.idle)
          (updateCurrentPage s clearGestureUpd).pages :=
        inv3_updateCurrentPage s g _ clearGestureUpd (fun _ => rfl)
          (fun p hp => classOf_clearGestureUpd p hp) h
      cases hbox : cp.selectionBox with
      | none =>
          rw [show Inv3With s.currentPageId GClass.idle (viewportOnPointerUp s).pages =
                Inv3With s.currentPageId GClass.idle
                  (updateCurrentPage s clearGestureUpd).pages from by
            rw [(viewportOnPointerUp_pages_noBox s cp hcp hbox).1]]
          have hgm : g ≠ GClass.marquee := by
            have hmem := getCurrentPage_mem hcp
            have hcur := getCurrentPage_id hcp
            have hcls := h cp hmem
            rw [if_pos hcur] at hcls
            exact classOf_not_marquee hcls hbox
          rw [if_neg hgm] at h0
          exact h0
      | some box =>
          rw [show Inv3With s.currentPageId GClass.idle (viewportOnPointerUp s).pages =
                Inv3With s.currentPageId GClass.idle
                  (updateCurrentPage
                    (handleSelectionBoxComplete
                      (updateCurrentPage s clearGestureUpd) box)
                    clearBoxUpd).pages from by
            rw [(viewportOnPointerUp_pages_box s cp box hcp hbox).1]]
          have h2 : Inv3With s.currentPageId
              (if g = GClass.marquee then GClass.marquee else GClass.idle)
              (handleSelectionBoxComplete
                (updateCurrentPage s clearGestureUpd) box).pages :=
            inv3_recordless _ _ _ (fun _ => rfl) (fun _ => rfl) (fun _ => rfl)
              (fun _ => rfl) h0
          refine inv3_updateCurrentPage _ _ GClass.idle clearBoxUpd
            (fun _ => rfl) (fun p hp => ?_) h2
          have hrd : p.resizing = none ∧ p.dragStart = none := by
            by_cases hg : g = GClass.marquee
            · rw [if_pos hg] at hp
              obtain ⟨hr, hd, -⟩ := (classOf_marquee_iff p).mp hp
              exact ⟨hr, hd⟩
            · rw [if_neg hg] at hp
              obtain ⟨hr, hd, -⟩ := (classOf_idle_iff p).mp hp
              exact ⟨hr, hd⟩
          simp [classOf, clearBoxUpd, hrd.1, hrd.2]

/-- From a gesture-idle state a canvas pointer-down establishes at most one
    gesture record (drag, marquee, or none). -/
theorem inv3_canvasDown (s : AppState) (e : PEvent)
    (h : Inv3With s.currentPageId GClass.idle s.pages) :
    ∃ g', Inv3With s.currentPageId g' (viewportOnPointerDown s e).pages := by
  unfold viewportOnPointerDown handleMiddleMouseDown handleDragStart
    handleSelectionBoxStart deselectAllBlocks
  dsimp only
  repeat' split
  all_goals
    first
      | exact ⟨GClass.idle, h⟩
      | exact ⟨GClass.idle,
          inv3_recordless _ GClass.idle _ (fun _ => rfl) (fun _ => rfl)
            (fun _ => rfl) (fun _ => rfl)
            (inv3_recordless s GClass.idle _ (fun _ => rfl) (fun _ => rfl)
              (fun _ => rfl) (fun _ => rfl) h)⟩
      | (refine ⟨GClass.drag, inv3_updateCurrentPage s GClass.idle GClass.drag _
            (fun _ => rfl) (fun p hp => ?_) h⟩
         obtain ⟨hr, hd, hb⟩ := (classOf_idle_iff p).mp hp
         simp [classOf, hr, hb]
         done)
      | (refine ⟨GClass.marquee, inv3_updateCurrentPage s GClass.idle GClass.marquee _
            (fun _ => rfl) (fun p hp => ?_) h⟩
         obtain ⟨hr, hd, hb⟩ := (classOf_idle_iff p).mp hp
         simp [classOf, hr, hd]
         done)

/-- From a gesture-idle state a pointer-down on a block establishes at most
    one gesture record. -/
theorem inv3_blockDown (s : AppState) (blockId : Nat) (e : PEvent)
    (h : Inv3With s.currentPageId GClass.idle s.pages) :
    ∃ g', Inv3With s.currentPageId g' (blockOnPointerDown s blockId e).pages := by
  unfold blockOnPointerDown toggleBlockSelection addBlockToSelection
    removeBlockFromSelection isBlockSelected selectBlock
  dsimp only
  repeat' split
  all_goals
    first
      | exact ⟨GClass.idle, h⟩
      | exact inv3_canvasDown s e h
      | exact ⟨GClass.idle,
          inv3_recordless s GClass.idle _ (fun _ => rfl) (fun _ => rfl)
            (fun _ => rfl) (fun _ => rfl) h⟩
      | (refine ⟨GClass.drag, inv3_updateCurrentPage _ GClass.idle GClass.drag _
            (fun _ => rfl) (fun p hp => ?_)
            (inv3_recordless s GClass.idle _ (fun _ => rfl) (fun _ => rfl)
              (fun _ => rfl) (fun _ => rfl) h)⟩
         obtain ⟨hr, hd, hb⟩ := (classOf_idle_iff p).mp hp
         simp [classOf, hr, hb]
         done)

/-- From a gesture-idle state a pointer-down on a block's resize handle sets
    only the resize record. -/
theorem inv3_handleDownBlock (s : AppState) (blockId : Nat) (handle : Handle)
    (h : Inv3With s.currentPageId GClass.idle s.pages) :
    ∃ g', Inv3With s.currentPageId g'
      (resizeHandleBlockPointerDown s blockId handle).pages := by
  unfold resizeHandleBlockPointerDown selectBlock
  dsimp only
  repeat' split
  all_goals
    first
      | exact ⟨GClass.idle, h⟩
      | (refine ⟨GClass.resize, inv3_updateCurrentPage _ GClass.idle GClass.resize _
            (fun _ => rfl) (fun p hp => ?_)
            (inv3_recordless s GClass.idle _ (fun _ => rfl) (fun _ => rfl)
              (fun _ => rfl) (fun _ => rfl) h)⟩
         obtain ⟨hr, hd, hb⟩ := (classOf_idle_iff p).mp hp
         simp [classOf, hd, hb]
         done)

/-- From a gesture-idle state a pointer-down on the multi-select bounding
    box handle sets only the resize record. -/
theorem inv3_handleDownMulti (s : AppState) (handle : Handle)
    (h : Inv3With s.currentPageId GClass.idle s.pages) :
    ∃ g', Inv3With s.currentPageId g'
      (resizeHandleMultiPointerDown s handle).pages := by
  unfold resizeHandleMultiPointerDown
  dsimp only
  repeat' split
  all_goals
    first
      | exact ⟨GClass.idle, h⟩
      | (refine ⟨GClass.resize, inv3_updateCurrentPage s GClass.idle GClass.resize _
            (fun _ => rfl) (fun p hp => ?_) h⟩
         obtain ⟨hr, hd, hb⟩ := (classOf_idle_iff p).mp hp
         simp [classOf, hd, hb]
         done)

/-- All three in-progress gesture records are null. -/
def GestureIdle (p : Page) : Prop :=
  p.resizing = none ∧ p.dragStart = none ∧ p.selectionBox = none

/-- The pointer-down events of the alphabet. -/
def IsDownEv : CanvasEvent → Prop
  | .canvasDown _ => True
  | .blockDown _ _ => True
  | .handleDownBlock _ _ => True
  | .handleDownMulti _ => True
  | .pointerMove _ => False
  | .pointerUp => False

/-- Event sequences in which pointer presses do not overlap: a pointer-down
    may occur only when no press is open (`open = false`), and opens one;
    pointer-up closes the press; moves leave it unchanged.  `PressSeq open
    evs` reads: starting with press state `open`, `evs` is well-nested. -/
inductive PressSeq : Bool → List CanvasEvent → Prop
  | nil (b : Bool) : PressSeq b []
  | down (e : CanvasEvent) (rest : List CanvasEvent) :
      IsDownEv e → PressSeq true rest → PressSeq false (e :: rest)
  | up (b : Bool) (rest : List CanvasEvent) :
      PressSeq false rest → PressSeq b (CanvasEvent.pointerUp :: rest)
  | move (b : Bool) (e : PEvent) (rest : List CanvasEvent) :
      PressSeq b rest → PressSeq b (CanvasEvent.pointerMove e :: rest)

theorem inv3_down (s : AppState) (ev : CanvasEvent) (hdown : IsDownEv ev)
    (h : Inv3With s.currentPageId GClass.idle s.pages) :
    ∃ g', Inv3With s.currentPageId g' (step s ev).pages := by
  cases ev with
  | canvasDown e => exact inv3_canvasDown s e h
  | blockDown blockId e => exact inv3_blockDown s blockId e h
  | handleDownBlock blockId handle => exact inv3_handleDownBlock s blockId handle h
  | handleDownMulti handle => exact inv3_handleDownMulti s handle h
  | pointerMove e => cases hdown
  | pointerUp => cases hdown

theorem pressSeq_inv (b : Bool) (evs : List CanvasEvent) (hseq : PressSeq b evs) :
    ∀ s : AppState,
      (b = true → ∃ g, Inv3With s.currentPageId g s.pages) →
      (b = false → Inv3With s.currentPageId GClass.idle s.pages) →
      ∀ p ∈ (runEvents s evs).pages, AtMostOneGesture p := by
  induction hseq with
  | nil b =>
      intro s h1 h0 p hp
      cases b with
      | true =>
          obtain ⟨g, hg⟩ := h1 rfl
          exact classOf_atMostOne (hg p hp)
      | false =>
          exact classOf_atMostOne (h0 rfl p hp)
  | down e rest hd hrest ih =>
      intro s h1 h0
      obtain ⟨g', hg'⟩ := inv3_down s e hd (h0 rfl)
      have hg'' : Inv3With (step s e).currentPageId g' (step s e).pages := by
        rw [step_currentPageId]
        exact hg'
      exact ih (step s e) (fun _ => ⟨g', hg''⟩) (fun hff => Bool.noConfusion hff)
  | up b rest hrest ih =>
      intro s h1 h0
      have hsome : ∃ g, Inv3With s.currentPageId g s.pages := by
        cases b with
        | true => exact h1 rfl
        | false => exact ⟨GClass.idle, h0 rfl⟩
      obtain ⟨g, hg⟩ := hsome
      have hidle : Inv3With (viewportOnPointerUp s).currentPageId GClass.idle
          (viewportOnPointerUp s).pages := by
        rw [show (viewportOnPointerUp s).currentPageId = s.currentPageId from
          step_currentPageId s CanvasEvent.pointerUp]
        exact inv3_up s g hg
      exact ih (viewportOnPointerUp s)
        (fun _ => ⟨GClass.idle, hidle⟩) (fun _ => hidle)
  | move b e rest hrest ih =>
      intro s h1 h0
      have hcpid : (viewportOnPointerMove s e).currentPageId = s.currentPageId :=
        step_currentPageId s (CanvasEvent.pointerMove e)
      refine ih (viewportOnPointerMove s e) (fun hb => ?_) (fun hb => ?_)
      · obtain ⟨g, hg⟩ := h1 hb
        refine ⟨g, ?_⟩
        rw [hcpid]
        exact inv3_move s e g hg
      · rw [hcpid]
        exact inv3_move s e GClass.idle (h0 hb)

/-- C3, amended: from any state whose pages are all gesture-idle, along any
    well-nested pointer event sequence (every pointer-down is closed by a
    pointer-up before the next pointer-down), every reachable state has at
    most one of `resizing`, `dragStart`, `selectionBox` non-null on every
    page. -/
theorem c3_gesture_exclusion_wellNested (s : AppState) (evs : List CanvasEvent)
    (hseq : PressSeq false evs)
    (hidle : ∀ p ∈ s.pages, GestureIdle p) :
    ∀ p ∈ (runEvents s evs).pages, AtMostOneGesture p := by
  refine pressSeq_inv false evs hseq s (fun hff => Bool.noConfusion hff)
    (fun _ p hp => ?_)
  obtain ⟨hr, hd, hb⟩ := hidle p hp
  rw [ite_self]
  exact (classOf_idle_iff p).mpr ⟨hr, hd, hb⟩

/-- A gesture-idle state with one block. -/
def c3state : AppState := mkState [mkPage "p" [mkBlock 1 0 0 100 100]] "p"

/-- Pointer-down on the block, then — without an intervening pointer-up — a
    pointer-down on its resize handle. -/
def c3events : List CanvasEvent :=
  [CanvasEvent.blockDown 1
      { clientX := 0, clientY := 0, button := 0, shiftKey := false,
        canvasRectLeft := 0, canvasRectTop := 0 },
   CanvasEvent.handleDownBlock 1 Handle.se]

/-- C3, counterexample: from a gesture-idle initial state, two overlapping
    pointer-downs (on a block, then on its resize handle, with no pointer-up
    between them) produce a page whose `dragStart` and `resizing` are both
    non-null, violating the claimed mutual exclusion for arbitrary
    pointer-event sequences. -/
theorem c3_counterexample :
    (∀ p ∈ c3state.pages, GestureIdle p) ∧
    ∃ p ∈ (runEvents c3state c3events).pages,
      p.dragStart.isSome = true ∧ p.resizing.isSome = true := by
  constructor
  · intro p hp
    rcases List.mem_singleton.mp hp with rfl
    exact ⟨rfl, rfl, rfl⟩
  · refine ⟨_, List.mem_singleton.mpr rfl, ?_, ?_⟩ <;> rfl

/- ------------------------------------------------------------------ -/
/- Witnesses: closed instantiations of the hypothesis-bearing claims.  -/
/- ------------------------------------------------------------------ -/

/-- A well-nested event sequence: block press, move, release. -/
def c3wEvents : List CanvasEvent :=
  [CanvasEvent.blockDown 1
      { clientX := 0, clientY := 0, button := 0, shiftKey := false,
        canvasRectLeft := 0, canvasRectTop := 0 },
   CanvasEvent.pointerMove
      { clientX := 5, clientY := 5, button := 0, shiftKey := false,
        canvasRectLeft := 0, canvasRectTop := 0 },
   CanvasEvent.pointerUp]

/-- C3 witness: the amended invariant applied to a concrete well-nested
    press-move-release sequence. -/
theorem c3_gesture_exclusion_wellNested_witness :
    PressSeq false c3wEvents ∧ (∀ p ∈ c3state.pages, GestureIdle p) ∧
    (∀ p ∈ (runEvents c3state c3wEvents).pages, AtMostOneGesture p) := by
  have hseq : PressSeq false c3wEvents :=
    PressSeq.down _ _ trivial
      (PressSeq.move _ _ _ (PressSeq.up _ _ (PressSeq.nil false)))
  have hidle : ∀ p ∈ c3state.pages, GestureIdle p := by
    intro p hp
    rcases List.mem_singleton.mp hp with rfl
    exact ⟨rfl, rfl, rfl⟩
  exact ⟨hseq, hidle, c3_gesture_exclusion_wellNested c3state c3wEvents hseq hidle⟩

/-- An arbitrary committed mutation payload. -/
def c4mut : Mutation := { pages := [], currentPageId := "p" }

/-- C4 witness: the bound applied to a concrete interleaving and the exact
    51-commit count at a concrete state. -/
theorem c4_undo_stack_bound_witness :
    (mkState [mkPage "p" []] "p").mementoManager = createMementoManager ∧
    (List.replicate 51 c4mut).length = 51 ∧
    (runMOps (mkState [mkPage "p" []] "p")
        [MOp.commit c4mut, MOp.undo, MOp.redo]).mementoManager.undoStack.length ≤ 50 ∧
    (applyCommits (mkState [mkPage "p" []] "p")
        (List.replicate 51 c4mut)).mementoManager.undoStack.length = 50 := by
  refine ⟨rfl, by simp, ?_, ?_⟩
  · exact c4_undo_stack_bound.1 _ [MOp.commit c4mut, MOp.undo, MOp.redo] rfl
  · exact (c4_undo_stack_bound.2 _ (List.replicate 51 c4mut) rfl (by simp)).1

/-- The page of the single-block resize witness: block 1 being resized via
    its `se` handle. -/
def c5page : Page :=
  { mkPage "p" [mkBlock 1 0 0 100 100] with
      selectedIds := [1]
      resizing := some
        { id := ResizeTarget.block 1, handle := Handle.se,
          startWidth := 100, startHeight := 100, startX := 0, startY := 0,
          originalBlocks := none } }

/-- The state of the single-block resize witness. -/
def c5state : AppState := mkState [c5page] "p"

/-- A pointer-move to canvas point (10,10), proposing a 10×10 block. -/
def c5event : PEvent :=
  { clientX := 10, clientY := 10, button := 0, shiftKey := false,
    canvasRectLeft := 0, canvasRectTop := 0 }

/-- The resulting page: the block floored to `MIN_SIZE`. -/
def c5pageAfter : Page := { c5page with blocks := [mkBlock 1 0 0 20 20] }

/-- C5 witness: the invariant applied to a concrete resize whose proposed
    size 10×10 is floored to 20×20. -/
theorem c5_resize_min_size_witness :
    c5pageAfter ∈ (handleResizePointerMove c5state c5event).pages ∧
    mkBlock 1 0 0 20 20 ∈ c5pageAfter.blocks ∧
    ((∃ p ∈ c5state.pages, mkBlock 1 0 0 20 20 ∈ p.blocks) ∨
     (MIN_SIZE ≤ (mkBlock 1 0 0 20 20).width ∧
      MIN_SIZE ≤ (mkBlock 1 0 0 20 20).height)) := by
  have hpages : (handleResizePointerMove c5state c5event).pages = [c5pageAfter] := by
    simp only [handleResizePointerMove, c5state, c5page, c5event, c5pageAfter,
      mkState, mkPage, mkBlock, getCurrentPage, getCurrentBlocks,
      getCurrentViewport, updateCurrentPage, RESIZE_HANDLERS,
      singleResizeBlock, MIN_SIZE, createMementoManager, List.find?, List.map]
    norm_num
  have h1 : c5pageAfter ∈ (handleResizePointerMove c5state c5event).pages := by
    rw [hpages]
    exact List.mem_singleton.mpr rfl
  have h2 : mkBlock 1 0 0 20 20 ∈ c5pageAfter.blocks :=
    List.mem_singleton.mpr rfl
  exact ⟨h1, h2, c5_resize_min_size c5state c5event _ h1 _ h2⟩

/-- The original-blocks snapshot of the group-resize example. -/
def c6obs : List OriginalBlock :=
  [{ id := 1, x := 0, y := 0, width := 100, height := 100 },
   { id := 2, x := 100, y := 0, width := 50, height := 50 }]

/-- C6 witness: the general proportionality statement applied to the spec's
    example state. -/
theorem c6_group_resize_proportionality_witness :
    getCurrentPage c6state = some c6page ∧
    c6page.resizing = some c6rz ∧
    c6rz.id = ResizeTarget.selectionBoundingBox ∧
    c6rz.originalBlocks = some c6obs ∧
    c6state.isShiftPressed = false ∧
    (∃ pageR, getCurrentPage (handleResizePointerMove c6state c6event) = some pageR ∧
      List.Forall₂ (fun (b b' : Block) =>
        match c6obs.find? (fun o => o.id == b.id) with
        | none => b' = b
        | some o =>
            b'.x = (groupVirtualNewBBox c6state c6event c6rz).x +
              ((o.x - c6rz.startX) / c6rz.startWidth) *
                (groupVirtualNewBBox c6state c6event c6rz).width ∧
            b'.y = (groupVirtualNewBBox c6state c6event c6rz).y +
              ((o.y - c6rz.startY) / c6rz.startHeight) *
                (groupVirtualNewBBox c6state c6event c6rz).height ∧
            b'.width = max MIN_SIZE
              (o.width * ((groupVirtualNewBBox c6state c6event c6rz).width /
                c6rz.startWidth)) ∧
            b'.height = max MIN_SIZE
              (o.height * ((groupVirtualNewBBox c6state c6event c6rz).height /
                c6rz.startHeight)))
        c6page.blocks pageR.blocks) :=
  ⟨rfl, rfl, rfl, rfl, rfl,
    c6_group_resize_proportionality.1 c6state c6event c6page c6rz c6obs
      rfl rfl rfl rfl rfl⟩

/-- The page of the zoom witness (zoom 1, mouse at the origin). -/
def c7wpage : Page := mkPage "p" []

/-- The state of the zoom witness. -/
def c7wstate : AppState := mkState [c7wpage] "p"

/-- A ctrl+wheel event with delta -10 (zoom in by 0.1). -/
def c7wevent : WEvent :=
  { deltaX := 0, deltaY := -10, ctrlKey := true, metaKey := false,
    rectLeft := 0, rectTop := 0 }

/-- C7 witness: the amended zoom/anchoring statement applied to a concrete
    ctrl+wheel event. -/
theorem c7_zoom_anchoring_witness :
    getCurrentPage c7wstate = some c7wpage ∧
    (c7wevent.ctrlKey = true ∨ c7wevent.metaKey = true) ∧
    ¬(|c7wevent.deltaY| < 50 ∧ c7wevent.ctrlKey = false) ∧
    (0 : ℚ) < c7wpage.zoom ∧
    (∃ page', getCurrentPage (viewportOnWheel c7wstate c7wevent) = some page' ∧
      page'.zoom = max (1/10) (min 5 (c7wpage.zoom + -c7wevent.deltaY * (1/100))) ∧
      page'.offsetX = (c7wpage.mouseX - c7wevent.rectLeft) -
        ((c7wpage.mouseX - c7wevent.rectLeft) - c7wpage.offsetX) *
          (page'.zoom / c7wpage.zoom) ∧
      page'.offsetY = (c7wpage.mouseY - c7wevent.rectTop) -
        ((c7wpage.mouseY - c7wevent.rectTop) - c7wpage.offsetY) *
          (page'.zoom / c7wpage.zoom) ∧
      screenToCanvas page'.offsetX page'.zoom (c7wpage.mouseX - c7wevent.rectLeft) =
        screenToCanvas c7wpage.offsetX c7wpage.zoom
          (c7wpage.mouseX - c7wevent.rectLeft) ∧
      screenToCanvas page'.offsetY page'.zoom (c7wpage.mouseY - c7wevent.rectTop) =
        screenToCanvas c7wpage.offsetY c7wpage.zoom
          (c7wpage.mouseY - c7wevent.rectTop)) := by
  have htrack : ¬(|c7wevent.deltaY| < 50 ∧ c7wevent.ctrlKey = false) := by
    rintro ⟨-, hc⟩
    exact Bool.noConfusion hc
  have hz : (0 : ℚ) < c7wpage.zoom := by
    show (0 : ℚ) < 1
    norm_num
  exact ⟨rfl, Or.inl rfl, htrack, hz,
    c7_zoom_anchoring c7wstate c7wevent c7wpage rfl (Or.inl rfl) htrack hz⟩

/-- The marquee of the spec's example, from (0,0) to (15,15). -/
def c8box : SelectionBox :=
  { startX := 0, startY := 0, currentX := 15, currentY := 15 }

/-- C8 witness: the membership characterization applied to the example. -/
theorem c8_marquee_intersection_witness :
    getCurrentPage c8state = some c8page ∧
    (7 ∈ calculatePreviewSelection c8state c8box ↔
      ((c8state.isShiftPressed = true ∧ 7 ∈ c8page.selectedIds) ∨
       ∃ b ∈ c8page.blocks, blockIntersectsBox b c8box = true ∧ b.id = 7)) :=
  ⟨rfl, c8_marquee_intersection.1 c8state c8box c8page rfl 7⟩

/-- The resize record of the single-block resize witness: block 1 resized
    from its recorded 100×100 start. -/
def c9rz : Resizing :=
  { id := ResizeTarget.block 1, handle := Handle.se,
    startWidth := 100, startHeight := 100, startX := 0, startY := 0,
    originalBlocks := none }

/-- The resized block of the single-block resize witness: width grown to
    150. -/
def c9rb : Block := mkBlock 1 0 0 150 100

/-- The page of the single-block resize witness. -/
def c9rpage : Page := { mkPage "p" [c9rb] with resizing := some c9rz }

/-- The state of the single-block resize witness. -/
def c9rstate : AppState := mkState [c9rpage] "p"

/-- The snapshotted original block of the group-resize witness. -/
def c9gob : OriginalBlock := { id := 1, x := 0, y := 0, width := 100, height := 100 }

/-- The resize record of the group-resize witness. -/
def c9grz : Resizing :=
  { id := ResizeTarget.selectionBoundingBox, handle := Handle.se,
    startWidth := 100, startHeight := 100, startX := 0, startY := 0,
    originalBlocks := some [c9gob] }

/-- The block of the group-resize witness, moved by 5px (beyond the 0.1px
    epsilon). -/
def c9gb : Block := mkBlock 1 5 0 100 100

/-- The page of the group-resize witness. -/
def c9gpage : Page := { mkPage "p" [c9gb] with resizing := some c9grz }

/-- The state of the group-resize witness. -/
def c9gstate : AppState := mkState [c9gpage] "p"

/-- C9 witness: the amended pointer-up commit statement applied to the
    sub-epsilon drag state, to a concrete single-block resize and to a
    concrete group resize. -/
theorem c9_pointer_up_gesture_commit_witness :
    (getCurrentPage c9state = some c9page ∧
     c9page.dragStart = some c9ds ∧
     (getCurrentBlocks c9state).find? (fun b => b.id == c9ds.id) = some c9db ∧
     c9ds.id ∈ c9page.selectedIds ∧
     (((viewportOnPointerUp c9state).currentPageId = c9state.currentPageId ∧
       ∃ p', getCurrentPage (viewportOnPointerUp c9state) = some p' ∧
         p'.dragStart = none ∧ p'.resizing = none ∧ p'.selectionBox = none) ∧
      ((c9db.x ≠ c9ds.startX ∨ c9db.y ≠ c9ds.startY) →
        (viewportOnPointerUp c9state).mementoManager.undoStack =
          pushBounded c9state.mementoManager.maxHistorySize
            (createMemento (preDragState c9state c9page.selectedIds
              (c9db.x - c9ds.startX) (c9db.y - c9ds.startY)))
            c9state.mementoManager.undoStack ∧
        (viewportOnPointerUp c9state).mementoManager.redoStack = []) ∧
      (c9db.x = c9ds.startX ∧ c9db.y = c9ds.startY →
        (viewportOnPointerUp c9state).mementoManager = c9state.mementoManager))) ∧
    (getCurrentPage c9rstate = some c9rpage ∧
     c9rpage.dragStart = none ∧
     c9rpage.resizing = some c9rz ∧
     c9rz.id = ResizeTarget.block 1 ∧
     (getCurrentBlocks c9rstate).find? (fun b => b.id == 1) = some c9rb ∧
     (((viewportOnPointerUp c9rstate).currentPageId = c9rstate.currentPageId ∧
       ∃ p', getCurrentPage (viewportOnPointerUp c9rstate) = some p' ∧
         p'.dragStart = none ∧ p'.resizing = none ∧ p'.selectionBox = none) ∧
      ((c9rb.width ≠ c9rz.startWidth ∨ c9rb.height ≠ c9rz.startHeight ∨
        c9rb.x ≠ c9rz.startX ∨ c9rb.y ≠ c9rz.startY) →
        (viewportOnPointerUp c9rstate).mementoManager.undoStack =
          pushBounded c9rstate.mementoManager.maxHistorySize
            (createMemento (preResizeSingleState c9rstate 1 c9rz))
            c9rstate.mementoManager.undoStack ∧
        (viewportOnPointerUp c9rstate).mementoManager.redoStack = []) ∧
      (c9rb.width = c9rz.startWidth ∧ c9rb.height = c9rz.startHeight ∧
       c9rb.x = c9rz.startX ∧ c9rb.y = c9rz.startY →
        (viewportOnPointerUp c9rstate).mementoManager = c9rstate.mementoManager))) ∧
    (getCurrentPage c9gstate = some c9gpage ∧
     c9gpage.dragStart = none ∧
     c9gpage.resizing = some c9grz ∧
     c9grz.id = ResizeTarget.selectionBoundingBox ∧
     c9grz.originalBlocks = some [c9gob] ∧
     (((viewportOnPointerUp c9gstate).currentPageId = c9gstate.currentPageId ∧
       ∃ p', getCurrentPage (viewportOnPointerUp c9gstate) = some p' ∧
         p'.dragStart = none ∧ p'.resizing = none ∧ p'.selectionBox = none) ∧
      ((∃ ob ∈ [c9gob], ∃ cb,
          (getCurrentBlocks c9gstate).find? (fun b => b.id == ob.id) = some cb ∧
          (|cb.x - ob.x| > 1/10 ∨ |cb.y - ob.y| > 1/10 ∨
           |cb.width - ob.width| > 1/10 ∨ |cb.height - ob.height| > 1/10)) →
        (viewportOnPointerUp c9gstate).mementoManager.undoStack =
          pushBounded c9gstate.mementoManager.maxHistorySize
            (createMemento (preResizeGroupState c9gstate [c9gob]))
            c9gstate.mementoManager.undoStack ∧
        (viewportOnPointerUp c9gstate).mementoManager.redoStack = []) ∧
      ((∀ ob ∈ [c9gob], ∀ cb,
          (getCurrentBlocks c9gstate).find? (fun b => b.id == ob.id) = some cb →
          |cb.x - ob.x| ≤ 1/10 ∧ |cb.y - ob.y| ≤ 1/10 ∧
          |cb.width - ob.width| ≤ 1/10 ∧ |cb.height - ob.height| ≤ 1/10) →
        (viewportOnPointerUp c9gstate).mementoManager = c9gstate.mementoManager))) :=
  ⟨⟨rfl, rfl, rfl, List.mem_singleton.mpr rfl,
      c9_pointer_up_gesture_commit.1 c9state c9page c9ds c9db rfl rfl rfl
        (List.mem_singleton.mpr rfl)⟩,
   ⟨rfl, rfl, rfl, rfl, rfl,
      c9_pointer_up_gesture_commit.2.1 c9rstate c9rpage c9rz 1 c9rb
        rfl rfl rfl rfl rfl⟩,
   ⟨rfl, rfl, rfl, rfl, rfl,
      c9_pointer_up_gesture_commit.2.2 c9gstate c9gpage c9grz [c9gob]
        rfl rfl rfl rfl rfl⟩⟩

end Wikicollage
